import Mathlib

set_option maxRecDepth 8000

/-!
Shallow embedding of the pz-save-reader heuristic blob decoder and
snapshot/sync pipeline, with theorems checking the specification's claims
against the code.

The repository contains two copies of the decoder:
  * `src/lib/decode-pz-buffer.js` (imported by the server `src/index.js`),
    embedded here with the suffix-free names (`decodePzBuffer`,
    `extractSkillLevelsFromBuffer`, ...);
  * a second copy in `src/unnamed/part_002`, embedded with the `P2` suffix
    (`decodePzBufferP2`, `decodePlayerSkills`, ...).
Both are embedded faithfully and each claim is settled against the copies it
cites.

Modelling conventions:
  * A JS `Buffer` is a `List Nat` of byte values; `Buffer.from` on a plain
    array coerces entries with `% 256`, which is applied at the same place
    the source applies it.
  * JS numbers read from the buffer are exact: unsigned/signed 32-bit reads
    are `Nat`/`Int`; an IEEE-754 big-endian double is decoded exactly as an
    integer scaled by 2^1074 (the value of the double is `scaled / 2^1074`),
    together with a finiteness flag, so every comparison the source makes on
    a double (`>= 0`, `<= 10`, `< 1e10`, `Math.floor(d) === d`) is mirrored
    exactly on the scaled integer with no floating-point arithmetic.
  * `buffer.toString("utf8")` is `utf8DecodeList`, a WHATWG-style UTF-8
    decoder emitting U+FFFD for invalid bytes (one per offending byte, the
    byte is reconsumed when it can start a new sequence, as Node does).
  * JS objects built by conditional field assignment are association lists
    `List (String × FieldVal)`; a field that the source assigns only under a
    guard becomes `optF key (if guard then some v else none)`.  Key order in
    the list follows the first assignment site; claims below only ever look
    at membership and `List.lookup`, which do not depend on the order.
  * The `try/catch` wrapper in `decodePzBuffer` is not modelled because every
    operation performed inside it is total in the embedding (all reads are
    bounds-guarded in the source); the `_error` diagnostic field is therefore
    never produced.  `readInt32BE`'s possible out-of-range throw inside
    `decodePlayerSkills` IS modelled (it is reachable), as the explicit
    out-of-bounds branch of that function.
-/

/-! ### Byte-level helpers -/

/-- `buf[i]` with a default for out-of-range access (JS gives `undefined`;
each use site picks a default that makes the surrounding comparison false,
matching the JS comparison against `undefined`). -/
def getB (buf : List Nat) (i : Nat) (d : Nat) : Nat := buf.getD i d

/-- The bytes `buf[a..b)`, as `Buffer.subarray(a, b)` for `a ≤ b ≤ length`. -/
def listExtract (buf : List Nat) (a b : Nat) : List Nat :=
  (buf.drop a).take (b - a)

/-- `buf.readUInt16BE i` (callers guarantee `i + 2 ≤ buf.length`). -/
def readUInt16BE (buf : List Nat) (i : Nat) : Nat :=
  256 * getB buf i 0 + getB buf (i + 1) 0

/-- `buf.readUInt32BE i` (callers guarantee `i + 4 ≤ buf.length`). -/
def readUInt32BE (buf : List Nat) (i : Nat) : Nat :=
  16777216 * getB buf i 0 + 65536 * getB buf (i + 1) 0 +
    256 * getB buf (i + 2) 0 + getB buf (i + 3) 0

/-- `buf.readInt32BE i`: the signed interpretation of the same 4 bytes. -/
def readInt32BE (buf : List Nat) (i : Nat) : Int :=
  let u := readUInt32BE buf i
  if u < 2 ^ 31 then (u : Int) else (u : Int) - 2 ^ 32

/-- The scaling factor of the exact double representation, `2 ^ 1074`,
written as a numeral so that kernel evaluation never unfolds a
1074-deep power. -/
def dScale : Nat := 202402253307310618352495346718917307049556649764142118356901358027430339567995346891960383701437124495187077864316811911389808737385793476867013399940738509921517424276566361364466907742093216341239767678472745068562007483424692698618103355649159556340810056512358769552333414615230502532186327508646006263307707741093494784

/-- Exact decode of `buf.readDoubleBE i`: returns `(finite?, v)` where the
real value of the double is `v / 2^1074` (so comparisons against 0, 10 and
1e10 and integrality can be decided exactly on `v`).  `-0` decodes to `0`,
matching JS `-0 >= 0` and Set membership (SameValueZero). -/
def readDoubleScaled (buf : List Nat) (i : Nat) : Bool × Int :=
  let b0 := getB buf i 0
  let b1 := getB buf (i + 1) 0
  let e := (b0 % 128) * 16 + b1 / 16
  let f : Nat := (b1 % 16) * 2 ^ 48 + (getB buf (i + 2) 0) * 2 ^ 40 +
    (getB buf (i + 3) 0) * 2 ^ 32 + (getB buf (i + 4) 0) * 2 ^ 24 +
    (getB buf (i + 5) 0) * 2 ^ 16 + (getB buf (i + 6) 0) * 2 ^ 8 +
    getB buf (i + 7) 0
  let mag : Int := ((if e = 0 then f else (2 ^ 52 + f) * 2 ^ (e - 1) : Nat) : Int)
  (e ≠ 2047, if 128 ≤ b0 then -mag else mag)

/-- UTF-8 encoding of one character (Node `Buffer.from(s, "utf8")`). -/
def utf8EncodeChar (c : Char) : List Nat :=
  let n := c.toNat
  if n < 128 then [n]
  else if n < 2048 then [192 + n / 64, 128 + n % 64]
  else if n < 65536 then [224 + n / 4096, 128 + n / 64 % 64, 128 + n % 64]
  else [240 + n / 262144, 128 + n / 4096 % 64, 128 + n / 64 % 64, 128 + n % 64]

/-- UTF-8 byte encoding of a string. -/
def utf8Encode (s : String) : List Nat :=
  s.data.flatMap utf8EncodeChar

/-- Is `b` a UTF-8 continuation byte (`0x80–0xBF`)? -/
def isCont (b : Nat) : Bool := 128 ≤ b && b ≤ 191

/-- WHATWG-style UTF-8 decoding of a byte list into characters, as Node's
`buffer.toString("utf8")`: well-formed sequences (with the standard
second-byte restrictions that exclude overlong forms, surrogates and values
above U+10FFFF) decode to their scalar; every other byte yields one U+FFFD
and decoding resumes at the next byte. -/
def utf8DecodeAux (buf : List Nat) : Nat → Nat → List Char
  | 0, _ => []
  | fuel + 1, i =>
    if i < buf.length then
      let b0 := getB buf i 0
      if b0 < 128 then Char.ofNat b0 :: utf8DecodeAux buf fuel (i + 1)
      else if 194 ≤ b0 ∧ b0 ≤ 223 then
        if i + 1 < buf.length ∧ isCont (getB buf (i + 1) 0) = true then
          Char.ofNat ((b0 - 192) * 64 + (getB buf (i + 1) 0 - 128)) ::
            utf8DecodeAux buf fuel (i + 2)
        else Char.ofNat 65533 :: utf8DecodeAux buf fuel (i + 1)
      else if 224 ≤ b0 ∧ b0 ≤ 239 then
        let b1 := getB buf (i + 1) 0
        if i + 1 < buf.length ∧ isCont b1 = true ∧ ¬(b0 = 224 ∧ b1 < 160) ∧
            ¬(b0 = 237 ∧ 159 < b1) then
          if i + 2 < buf.length ∧ isCont (getB buf (i + 2) 0) = true then
            Char.ofNat ((b0 - 224) * 4096 + (b1 - 128) * 64 +
              (getB buf (i + 2) 0 - 128)) :: utf8DecodeAux buf fuel (i + 3)
          else Char.ofNat 65533 :: utf8DecodeAux buf fuel (i + 2)
        else Char.ofNat 65533 :: utf8DecodeAux buf fuel (i + 1)
      else if 240 ≤ b0 ∧ b0 ≤ 244 then
        let b1 := getB buf (i + 1) 0
        if i + 1 < buf.length ∧ isCont b1 = true ∧ ¬(b0 = 240 ∧ b1 < 144) ∧
            ¬(b0 = 244 ∧ 143 < b1) then
          if i + 2 < buf.length ∧ isCont (getB buf (i + 2) 0) = true then
            if i + 3 < buf.length ∧ isCont (getB buf (i + 3) 0) = true then
              Char.ofNat ((b0 - 240) * 262144 + (b1 - 128) * 4096 +
                (getB buf (i + 2) 0 - 128) * 64 + (getB buf (i + 3) 0 - 128)) ::
                utf8DecodeAux buf fuel (i + 4)
            else Char.ofNat 65533 :: utf8DecodeAux buf fuel (i + 3)
          else Char.ofNat 65533 :: utf8DecodeAux buf fuel (i + 2)
        else Char.ofNat 65533 :: utf8DecodeAux buf fuel (i + 1)
      else Char.ofNat 65533 :: utf8DecodeAux buf fuel (i + 1)
    else []

/-- WHATWG-style UTF-8 decoding of a byte list. -/
def utf8DecodeList (l : List Nat) : List Char := utf8DecodeAux l l.length 0

/-- `buffer.toString("utf8")` as a Lean `String`. -/
def utf8Str (l : List Nat) : String := ⟨utf8DecodeList l⟩

/-- `[...new Set(xs)]`: deduplication keeping the first occurrence of each
element, in first-insertion order (JS `Set` iteration order). -/
def pzDedupAux {α : Type} [DecidableEq α] (seen : List α) : List α → List α
  | [] => []
  | a :: l => if a ∈ seen then pzDedupAux seen l else a :: pzDedupAux (a :: seen) l

/-- `[...new Set(xs)]` (entry point). -/
def pzDedup {α : Type} [DecidableEq α] (l : List α) : List α := pzDedupAux [] l

/-! Kernel-reducible counterparts of the JS string operations used by the
classifier (`toLowerCase`, `startsWith`, `endsWith`, `includes`, `trim`);
they operate on the character list underlying the string. -/

/-- `s.toLowerCase()` (ASCII; the only non-ASCII character reachable in an
extracted string is U+FFFD, which is case-invariant in JS as well). -/
def strLower (s : String) : String := ⟨s.data.map Char.toLower⟩

/-- `s.startsWith(p)`. -/
def strStarts (s p : String) : Bool := p.data.isPrefixOf s.data

/-- `s.endsWith(p)`. -/
def strEnds (s p : String) : Bool := p.data.isSuffixOf s.data

/-- `s.includes(c)` for a single character. -/
def strContainsCh (s : String) (c : Char) : Bool := s.data.contains c

/-- `s.trim()` (on the reachable alphabet JS trims exactly the ASCII
whitespace characters). -/
def strTrim (s : String) : String :=
  ⟨((s.data.dropWhile Char.isWhitespace).reverse.dropWhile
      Char.isWhitespace).reverse⟩

/-! ### String Extraction Engine (`extractReadableStrings`, identical in both
copies of the decoder) -/

/-- `isPrintableUtf8(buf)`: no NUL, no control byte other than tab (0x09),
no byte in `0x7F–0xC1` (invalid UTF-8 start / continuation range). -/
def isPrintableUtf8 (l : List Nat) : Bool :=
  l.all (fun b => !(b = 0) && !(b < 32 && !(b = 9)) && !(126 < b && b < 194))

/-- The declared big-endian 2-byte length prefix at `i`. -/
def lpLen (buf : List Nat) (i : Nat) : Nat := readUInt16BE buf i

/-- The candidate length-prefixed payload at `i`. -/
def lpSlice (buf : List Nat) (i : Nat) : List Nat :=
  listExtract buf (i + 2) (i + 2 + lpLen buf i)

/-- The full acceptance test for the length-prefixed strategy at `i`, in the
source's evaluation order: `0 < len ≤ 500`, region in bounds, payload
printable UTF-8, and the decoded character count equals the declared
length. -/
def lpChk (buf : List Nat) (i : Nat) : Prop :=
  0 < lpLen buf i ∧ lpLen buf i ≤ 500 ∧ i + 2 + lpLen buf i ≤ buf.length ∧
    isPrintableUtf8 (lpSlice buf i) = true ∧
    (utf8DecodeList (lpSlice buf i)).length = lpLen buf i

instance (buf : List Nat) (i : Nat) : Decidable (lpChk buf i) := by
  unfold lpChk; infer_instance

/-- One byte of a printable (null-terminated-run) string: `0x20–0x7E`. -/
def isRunByte (b : Nat) : Bool := !(b = 0) && 32 ≤ b && b ≤ 126

/-- End of the printable run starting at `i` (first index whose byte is NUL,
non-printable, or past the end). -/
def runEndF (buf : List Nat) : Nat → Nat → Nat
  | 0, i => i
  | fuel + 1, i =>
    if i < buf.length ∧ isRunByte (getB buf i 0) = true then
      runEndF buf fuel (i + 1)
    else i

/-- End of the printable run starting at `i` (the loop stops at the latest
when `i` reaches the end, so `buf.length - i` steps always suffice). -/
def runEnd (buf : List Nat) (i : Nat) : Nat := runEndF buf (buf.length - i) i

/-- `i = end; if (buf[i] === 0) i++`: skip one trailing NUL if present. -/
def skip0 (buf : List Nat) (e : Nat) : Nat :=
  if e < buf.length ∧ getB buf e 1 = 0 then e + 1 else e

/-- The scan loop of `extractReadableStrings`, from offset `i`: at each
offset try the length-prefixed strategy, then the printable-run strategy,
else advance one byte.  Every iteration advances the offset, so
`buf.length - i` iterations always suffice. -/
def extractFromF (buf : List Nat) : Nat → Nat → List String
  | 0, _ => []
  | fuel + 1, i =>
    if i < buf.length - 1 then
      if lpChk buf i then
        (⟨utf8DecodeList (lpSlice buf i)⟩ : String) ::
          extractFromF buf fuel (i + 2 + lpLen buf i)
      else if isRunByte (getB buf i 0) = true then
        if 2 ≤ runEnd buf i - i ∧ runEnd buf i - i ≤ 200 then
          (⟨utf8DecodeList (listExtract buf i (runEnd buf i))⟩ : String) ::
            extractFromF buf fuel (skip0 buf (runEnd buf i))
        else extractFromF buf fuel (i + 1)
      else extractFromF buf fuel (i + 1)
    else []

/-- The scan from offset `i` with its canonical fuel. -/
def extractFrom (buf : List Nat) (i : Nat) : List String :=
  extractFromF buf (buf.length - i) i

/-- `extractReadableStrings(buf)`. -/
def extractReadableStrings (buf : List Nat) : List String := extractFrom buf 0

/-! ### Character classes and little regex helpers

The JS regexes used by the Field Classifier only involve ASCII character
classes, literal alternations, anchored shapes and one unanchored substring
test; each is implemented as a decidable predicate with the same
semantics.  `test()` of an anchored pattern is existence of a full-string
parse, so backtracking order is irrelevant. -/

/-- `[A-Za-z0-9_]` (regex `\w`). -/
def wordChar (c : Char) : Bool := c.isAlphanum || c = '_'

/-- `[\x20-\x7e]` printable ASCII. -/
def printAscii (c : Char) : Bool := 32 ≤ c.toNat && c.toNat ≤ 126

/-- JS regex `\s` (ECMA-262 WhiteSpace ∪ LineTerminator). -/
def isJsSpace (c : Char) : Bool :=
  c.toNat ∈ ([9, 10, 11, 12, 13, 32, 160, 5760, 8192, 8193, 8194, 8195, 8196,
    8197, 8198, 8199, 8200, 8201, 8202, 8232, 8233, 8239, 8287, 12288,
    65279] : List Nat)

/-- Character class of the name-candidate regex `[A-Za-z0-9\s\-'_]`. -/
def nameChar (c : Char) : Bool :=
  c.isAlphanum || isJsSpace c || c = '-' || c = '_' || c.toNat = 39

/-- Does `pat` occur as a contiguous subsequence of `l`? (unanchored regex
`test` of a literal). -/
def hasSeq (pat : List Char) : List Char → Bool
  | [] => decide (pat = [])
  | c :: rest => pat.isPrefixOf (c :: rest) || hasSeq pat rest

/-- Substring containment on strings. -/
def strHasSub (s pat : String) : Bool := hasSeq pat.data s.data

/-- `/Key\b/`: the literal `key` (case already folded by the caller)
followed by a non-word character or the end of the string. -/
def hasKeyWord : List Char → Bool
  | [] => false
  | c :: rest =>
    (("key".data).isPrefixOf (c :: rest) &&
      (match (c :: rest).drop 3 with
       | [] => true
       | d :: _ => !wordChar d)) || hasKeyWord rest

/-! ### Vocabulary lists -/

/-- `KNOWN_PZ_SKILL_NAMES` (identical in both copies). -/
def KNOWN_PZ_SKILL_NAMES : List String :=
  ["Strength", "Fitness", "Sneak", "Nimble", "Lightfoot", "Sprinting",
   "Voice", "Carpentry", "Cooking", "Farming", "Fishing", "Trapping",
   "Electrical", "Metalworking", "Mechanics", "Tailoring", "Aiming",
   "Reloading", "Blunt", "Axe", "SmallBlade", "LongBlade", "SmallBlunt",
   "Spear", "Maintenance", "FirstAid"]

/-- `PZ_PROFESSION_IDS` of `part_002` (a JS `Set` of lowercase ids). -/
def PZ_PROFESSION_IDS : List String :=
  ["base:unemployed", "base:fireofficer", "base:policeofficer",
   "base:parkranger", "base:constructionworker", "base:securityguard",
   "base:carpenter", "base:burglar", "base:chef", "base:diyexpert",
   "base:rancher", "base:farmer", "base:angler", "base:doctor",
   "base:veteran", "base:nurse", "base:lumberjack", "base:fitnessinstructor",
   "base:burgerflipper", "base:electrician", "base:engineer", "base:welder",
   "base:blacksmith", "base:mechanic", "base:tailor", "base:repairman",
   "base:salesman"]

/-- `PZ_CLOTHING_SLOT_IDS` of `part_002`. -/
def PZ_CLOTHING_SLOT_IDS : List String :=
  ["base:belt", "base:mask", "base:hat", "base:tanktop", "base:tshirt",
   "base:shortsleeveshirt", "base:necklace", "base:socks", "base:shoes",
   "base:glasses", "base:gloves", "base:scarf", "base:bag", "base:jacket",
   "base:vest", "base:pants", "base:shorts", "base:underwear", "base:ring",
   "base:watch"]

/-- The skills list hard-coded inside `decodePlayerSkills` (`part_002`;
note it differs from `KNOWN_PZ_SKILL_NAMES`). -/
def P2_SKILLS : List String :=
  ["Strength", "Fitness", "Sprinting", "Lightfoot", "Nimble", "Sneak",
   "Axe", "LongBlunt", "ShortBlunt", "LongBlade", "ShortBlade", "Spear",
   "Maintenance", "Carpentry", "Cooking", "Farming", "FirstAid",
   "Electrical", "MetalWelding", "Mechanics", "Tailoring", "Aiming",
   "Reloading", "Fishing", "Trapping", "Foraging"]

/-! ### Field Classifier string predicates -/

/-- Vehicle custom-name filter: printable, length 3–79, no dot, not in the
structural-keyword stoplist (anchored case-insensitive alternation). -/
def customNameFilter (s : String) : Bool :=
  2 < s.length && s.length < 80 && s.data.all printAscii &&
    !(strContainsCh s (Char.ofNat 46)) &&
    !(strLower s ∈ ["base", "customname", "tooltip", "contentamount", "trunk",
      "seat", "door", "engine", "battery", "gastank", "muffler",
      "windshield", "brake", "tire", "radio", "glovebox"])

/-- Player name-candidate filter (`/^[A-Za-z0-9\s\-'_]+$/` plus length and
prefix exclusions; `/^\d+$/` excludes all-digit strings). -/
def nameCandFilter (s : String) : Bool :=
  2 ≤ s.length && s.length ≤ 30 && s.data.all nameChar &&
    !(strStarts s "base:") && !(strStarts s "Base.") &&
    !(s.data.all Char.isDigit)

/-- Likely-name refinement inside the character-name bucket. -/
def likelyNameFilter (s : String) : Bool :=
  s.length ≤ 20 && 2 ≤ (strTrim s).length

/-- `lib` profession filter: `/^base:[a-z]+$/i` and length below 30 (any
`base:word` string, no closed set). -/
def professionFilterLib (s : String) : Bool :=
  (strStarts (strLower s) "base:" && 5 < s.length &&
    ((strLower s).data.drop 5).all (fun c => c.isLower)) && s.length < 30

/-- `part_002` profession filter: `/^base:[a-z0-9]+$/i` and membership of
the lowercased string in the fixed `PZ_PROFESSION_IDS` set. -/
def professionFilterP2 (s : String) : Bool :=
  (strStarts (strLower s) "base:" && 5 < s.length &&
    ((strLower s).data.drop 5).all (fun c => c.isLower || c.isDigit)) &&
    strLower s ∈ PZ_PROFESSION_IDS

/-- `lib` trait filter: `base:` prefix, length 7–59, not already claimed by
the (possibly absent) profession bucket. -/
def traitFilterLib (professionIds : List String) (s : String) : Bool :=
  strStarts s "base:" && 6 < s.length && s.length < 60 &&
    !(s ∈ professionIds)

/-- `part_002` trait filter: `base:` prefix, length 7–59, lowercase not in
the profession set nor in the clothing/slot set. -/
def traitFilterP2 (s : String) : Bool :=
  strStarts s "base:" && 6 < s.length && s.length < 60 &&
    !(strLower s ∈ PZ_PROFESSION_IDS) && !(strLower s ∈ PZ_CLOTHING_SLOT_IDS)

/-- Stat/skill-name filter: anchored case-insensitive alternation over the
fixed skill vocabulary. -/
def statFilter (s : String) : Bool :=
  strLower s ∈ KNOWN_PZ_SKILL_NAMES.map strLower

/-- First branch of the appearance pattern:
`^(M_|F_)?(Hair|Beard|Beard_Stubble|Face)_[A-Za-z0-9_]+$` (case-folded). -/
def apPart1 (t : String) : Bool :=
  (["", "m_", "f_"].flatMap (fun p =>
    ["hair", "beard", "beard_stubble", "face"].map (fun m => p ++ m ++ "_"))).any
    (fun pre =>
      strStarts t pre && 1 ≤ (t.data.drop pre.length).length &&
        (t.data.drop pre.length).all wordChar)

/-- Second branch: `^[A-Za-z]+(Chin|Nose|Eyes|Hair)$` (case-folded). -/
def apPart2 (t : String) : Bool :=
  (["chin", "nose", "eyes", "hair"] : List String).any (fun k =>
    strEnds t k && 1 ≤ (t.data.take (t.data.length - k.length)).length &&
      (t.data.take (t.data.length - k.length)).all Char.isAlpha)

/-- Third branch: fixed literal alternation (case-folded). -/
def apPart3 (t : String) : Bool :=
  t ∈ ["pointychin", "shortafrocurly", "longafro", "bald", "stubble",
    "fullbeard", "goatee", "moustache"]

/-- Unanchored `/_(Hair|Beard|Chin|Nose|Eyes)/i`. -/
def apContains (t : String) : Bool :=
  (["_hair", "_beard", "_chin", "_nose", "_eyes"] : List String).any
    (fun p => strHasSub t p)

/-- Appearance filter. -/
def appearanceFilter (s : String) : Bool :=
  3 ≤ s.length && s.length ≤ 50 && s.data.all wordChar &&
    (apPart1 (strLower s) || apPart2 (strLower s) || apPart3 (strLower s) ||
      apContains (strLower s))

/-- Clothing/equipment type filter: `Base.*` item ids or `...TINT`. -/
def clothingTypesFilter (s : String) : Bool :=
  (strStarts s "Base." && s.length < 80 &&
    s.data.all (fun c => wordChar c || c = Char.ofNat 46)) ||
  (strEnds (strLower s) "tint" && 5 ≤ s.length && s.data.all wordChar &&
    s.length < 60)

/-- Clothing custom-name filter (residual printable strings). -/
def clothingCustomFilter (characterNames : List String) (s : String) : Bool :=
  2 ≤ s.length && s.length ≤ 40 && s.data.all printAscii &&
    !(strContainsCh s (Char.ofNat 46)) && !(strStarts s "base:") &&
    !(strLower s ∈ ["base", "tooltip", "contentamount", "strength", "fitness",
      "sneak", "nimble", "make", "id card", "key ring"]) &&
    !(s ∈ characterNames)

/-- Inventory-like string filter. -/
def inventoryFilter (s : String) : Bool :=
  10 ≤ s.length && s.length ≤ 80 && s.data.all printAscii &&
    (strContainsCh s (Char.ofNat 58) || strContainsCh s (Char.ofNat 39) ||
      strHasSub (strLower s) "key ring" || strHasSub (strLower s) "id card" ||
      hasKeyWord (strLower s).data)

/-- `/^Make[A-Za-z0-9_]*$/i`. -/
def makeShaped (s : String) : Bool :=
  strStarts (strLower s) "make" && (s.data.drop 4).all wordChar

/-- `/^[A-Za-z]+\.[A-Za-z0-9_]+Recipe$/i`: since neither side of the dot may
contain a dot, the string must split at a unique dot. -/
def dottedRecipeShaped (s : String) : Bool :=
  let t := (strLower s).data
  let a := t.takeWhile (fun c => !(c = Char.ofNat 46))
  match t.drop a.length with
  | c :: b =>
    c = Char.ofNat 46 && !(a.isEmpty) && a.all Char.isAlpha &&
      ("recipe".data).isSuffixOf b && 7 ≤ b.length && b.all wordChar
  | [] => false

/-- Recipe-id filter. -/
def recipeFilter (s : String) : Bool := makeShaped s || dottedRecipeShaped s

/-- Username fallback filter (3–20 alphanumeric chars, not claimed by any
earlier bucket). -/
def usernameFilter (known : List String) (s : String) : Bool :=
  3 ≤ s.length && s.length ≤ 20 && s.data.all Char.isAlphanum &&
    !(strStarts s "base:") && !(strStarts s "Base.") && !(makeShaped s) &&
    !(s ∈ known)

/-! ### Vehicle-path regex matching on the whole-buffer text -/

/-- Leftmost match of `/[a-zA-Z0-9]+\.[a-zA-Z0-9_]+/`: scanning left to
right, `run` holds (reversed) the current maximal alphanumeric run; a match
is found at the first dot preceded by at least one alphanumeric character
and followed by at least one word character, and consists of that maximal
run, the dot, and the maximal word-character run after it (greedy groups). -/
def firstDotAux (run : List Char) : List Char → Option String
  | [] => none
  | c :: rest =>
    if c = Char.ofNat 46 then
      if (!run.isEmpty && (match rest with | d :: _ => wordChar d | [] => false)) = true then
        some (String.mk run.reverse ++ String.mk [Char.ofNat 46] ++
          String.mk (rest.takeWhile (fun d => wordChar d)))
      else firstDotAux [] rest
    else if c.isAlphanum then firstDotAux (c :: run) rest
    else firstDotAux [] rest

/-- `utf8String.match(/[a-zA-Z0-9]+\.[a-zA-Z0-9_]+/)`. -/
def firstDotMatch (cs : List Char) : Option String := firstDotAux [] cs

/-- The alternation literals of `partPattern`, in source order. -/
def partLits : List String :=
  ["TrunkDoor", "Engine", "Battery", "GasTank", "Muffler", "Windshield",
   "Seat", "Door", "Tire", "Brake", "GloveBox", "Radio", "customName"]

/-- The first alternative of `partPattern` matching at position `i`
(`Base\.\w+` comes after the literals, with a greedy `\w+`). -/
def partMatchAt (cs : List Char) (i : Nat) : Option String :=
  match partLits.find? (fun lit => lit.data.isPrefixOf (cs.drop i)) with
  | some lit => some lit
  | none =>
    if ("Base.".data).isPrefixOf (cs.drop i) then
      let tail := (cs.drop (i + 5)).takeWhile (fun d => wordChar d)
      if tail ≠ [] then some ("Base." ++ String.mk tail) else none
    else none

/-- The global scan of `partPattern` (`String.prototype.match` with the `g`
flag): repeatedly take the first alternative matching at the current
position and continue after it, else advance one character. -/
def partScanF (cs : List Char) : Nat → Nat → List String
  | 0, _ => []
  | fuel + 1, i =>
    if i < cs.length then
      match partMatchAt cs i with
      | some m => m :: partScanF cs fuel (i + m.length)
      | none => partScanF cs fuel (i + 1)
    else []

/-- All matches of `partPattern` in the decoded whole-buffer text (every
match consumes at least one character, so `cs.length` steps suffice). -/
def partScan (cs : List Char) : List String := partScanF cs cs.length 0

/-! ### Skill Level Scanner (`lib` copy: `extractSkillLevelsFromBuffer`) -/

/-- Pattern A: one zero byte, then a 4-byte big-endian unsigned integer
(accepted if at most 10). -/
def candA (buf : List Nat) (after : Nat) : Option Int :=
  if getB buf after 1 = 0 ∧ after + 5 ≤ buf.length then
    if readUInt32BE buf (after + 1) ≤ 10 then
      some (readUInt32BE buf (after + 1) : Nat)
    else none
  else none

/-- Pattern B: a 4-byte big-endian unsigned integer immediately after. -/
def candB (buf : List Nat) (after : Nat) : Option Int :=
  if after + 4 ≤ buf.length then
    if readUInt32BE buf after ≤ 10 then some (readUInt32BE buf after : Nat)
    else none
  else none

/-- Pattern C: the second of two 4-byte big-endian integers. -/
def candC (buf : List Nat) (after : Nat) : Option Int :=
  if after + 8 ≤ buf.length then
    if readUInt32BE buf (after + 4) ≤ 10 then
      some (readUInt32BE buf (after + 4) : Nat)
    else none
  else none

/-- Pattern D: 8 bytes as a big-endian double that is finite, whole and in
`[0, 10]`; the level is `Math.round(d) = d`. -/
def candD (buf : List Nat) (after : Nat) : Option Int :=
  if after + 8 ≤ buf.length then
    let p := readDoubleScaled buf after
    if p.1 = true ∧ 0 ≤ p.2 ∧ p.2 ≤ 10 * (dScale : Int) ∧ (dScale : Int) ∣ p.2 then
      some (p.2 / (dScale : Int))
    else none
  else none

/-- The four layouts tried at one name occurrence, in priority order,
accepting the first that yields a value in `[0, 10]`. -/
def candidateAt (buf : List Nat) (after : Nat) : Option Int :=
  match candA buf after with
  | some l => some l
  | none =>
    match candB buf after with
    | some l => some l
    | none =>
      match candC buf after with
      | some l => some l
      | none => candD buf after

/-- The per-name scan loop of the `lib` Skill Level Scanner: find the next
occurrence of the name bytes (advancing past a matched name, valid level or
not), and return the candidate of the FIRST occurrence that yields one
(`skillLevels[name] = level; break`). -/
def scanNameF (buf : List Nat) (nb : List Nat) : Nat → Nat → Option Int
  | 0, _ => none
  | fuel + 1, i =>
    if i + nb.length + 4 ≤ buf.length then
      if listExtract buf i (i + nb.length) = nb then
        match candidateAt buf (i + nb.length) with
        | some l => some l
        | none => scanNameF buf nb fuel (i + nb.length + 1)
      else scanNameF buf nb fuel (i + 1)
    else none

/-- The per-name scan from offset `i` with its canonical fuel (the loop
runs while `i ≤ buf.length - nb.length - 4`, advancing every iteration). -/
def scanName (buf : List Nat) (nb : List Nat) (i : Nat) : Option Int :=
  scanNameF buf nb (buf.length + 1 - i) i

/-- The per-name body of the `lib` Skill Level Scanner's `for` loop
(`continue` when the name already has a level). -/
def levelStep (buf : List Nat) (acc : List (String × Int)) (name : String) :
    List (String × Int) :=
  if (acc.lookup name).isSome then acc
  else
    match scanName buf (utf8Encode name) 0 with
    | some l => acc ++ [(name, l)]
    | none => acc

/-- `extractSkillLevelsFromBuffer(buf, statNames)` of the `lib` copy. -/
def extractSkillLevelsFromBuffer (buf : List Nat) (statNames : List String) :
    List (String × Int) :=
  if buf.length < 10 ∨ statNames = [] then []
  else statNames.foldl (levelStep buf) []

/-! ### Skill XP Scanner (`extractSkillXpFromBuffer`, identical in both
copies) -/

/-- The double read after one name occurrence, kept if finite, nonnegative
and below 1e10 (exactly `10^10 · 2^1074` in scaled form). -/
def xpVal (buf : List Nat) (after : Nat) : Option Int :=
  if after + 8 ≤ buf.length then
    let p := readDoubleScaled buf after
    if p.1 = true ∧ 0 ≤ p.2 ∧ p.2 < 10000000000 * (dScale : Int) then some p.2
    else none
  else none

/-- The per-name scan loop of the Skill XP Scanner (note the source's strict
`i < buf.length - nameBuf.length - 8` loop bound). -/
def xpScanF (buf : List Nat) (nb : List Nat) : Nat → Nat → List Int
  | 0, _ => []
  | fuel + 1, i =>
    if i + nb.length + 8 < buf.length then
      if listExtract buf i (i + nb.length) = nb then
        match xpVal buf (i + nb.length) with
        | some v => v :: xpScanF buf nb fuel (i + nb.length + 1)
        | none => xpScanF buf nb fuel (i + nb.length + 1)
      else xpScanF buf nb fuel (i + 1)
    else []

/-- The XP scan from offset `i` with its canonical fuel. -/
def xpScan (buf : List Nat) (nb : List Nat) (i : Nat) : List Int :=
  xpScanF buf nb (buf.length - i) i

/-- The per-name body of the Skill XP Scanner's `for` loop. -/
def xpStep (buf : List Nat) (acc : List (String × List Int)) (name : String) :
    List (String × List Int) :=
  let values := xpScan buf (utf8Encode name) 0
  if values ≠ [] then
    if (acc.lookup name).isSome then acc
    else acc ++ [(name, (pzDedup values).take 15)]
  else acc

/-- `extractSkillXpFromBuffer(buf, statNames)`.  A duplicate name in
`statNames` recomputes and overwrites the identical entry in the JS object;
keeping the first entry yields the same mapping. -/
def extractSkillXpFromBuffer (buf : List Nat) (statNames : List String) :
    List (String × List Int) :=
  if buf.length < 10 ∨ statNames = [] then []
  else statNames.foldl (xpStep buf) []

/-! ### `decodePlayerSkills` (`part_002` copy) -/

/-- `buffer.lastIndexOf(pattern)`: the greatest offset where the byte
pattern occurs, if any. -/
def lastMatchPos (buf : List Nat) (pat : List Nat) : Option Nat :=
  ((List.range (buf.length + 1)).filter (fun i =>
    i + pat.length ≤ buf.length ∧ listExtract buf i (i + pat.length) = pat)).getLast?

/-- `decodePlayerSkills(buffer)`: for each name of its own fixed skill list,
read a signed 4-byte big-endian integer right after the LAST occurrence of
the name; keep it when in `[0, 10]`; when the read would be out of range the
source's `catch` stores level 0.  `dpsStep` is the per-skill `forEach`
body. -/
def dpsStep (buf : List Nat) (results : List (String × Int))
    (skill : String) : List (String × Int) :=
  match lastMatchPos buf (utf8Encode skill) with
  | none => results
  | some idx =>
    if idx + (utf8Encode skill).length + 4 ≤ buf.length then
      if 0 ≤ readInt32BE buf (idx + (utf8Encode skill).length) ∧
          readInt32BE buf (idx + (utf8Encode skill).length) ≤ 10 then
        results ++ [(skill, readInt32BE buf (idx + (utf8Encode skill).length))]
      else results
    else results ++ [(skill, 0)]

def decodePlayerSkills (buf : List Nat) : List (String × Int) :=
  P2_SKILLS.foldl (dpsStep buf) []

/-- `Object.values(skillLevels).reduce((a, b) => a + b, 0)`. -/
def sumLevels (m : List (String × Int)) : Int := (m.map Prod.snd).sum

/-! ### Blob Decoder field assembly -/

/-- A value stored in the dynamic `extracted` object. -/
inductive FieldVal where
  | vstr (s : String)
  | vstrs (l : List String)
  | vnum (n : Int)
  | vlevels (m : List (String × Int))
  | vxp (m : List (String × List Int))
  | vnull
  | vundef
  deriving DecidableEq, Repr

/-- A conditional object-field assignment: present exactly when the source's
guard fired. -/
def optF (k : String) (v : Option FieldVal) : List (String × FieldVal) :=
  match v with
  | some x => [(k, x)]
  | none => []

/-- `{ type, extracted, raw }` returned by `decodePzBuffer`. -/
structure ExtractionResult where
  type : String
  extracted : List (String × FieldVal)
  raw : List Nat
  deriving DecidableEq, Repr

/-! Per-field candidate computations (shared by both copies unless noted). -/

/-- `extracted.partNames` (vehicle). -/
def partNamesField (chars : List Char) : Option (List String) :=
  let parts := pzDedup ((partScan chars).filter (fun s => !(s = "")))
  if parts ≠ [] then some parts else none

/-- `extracted.customNames` (vehicle). -/
def customNamesField (strings : List String) : Option (List String) :=
  let customNames := strings.filter customNameFilter
  if customNames ≠ [] then some ((pzDedup customNames).take 20) else none

/-- `extracted.characterNames`: guarded by the raw candidate list being
non-empty, but holding the separately filtered likely-name list (which can
therefore be empty). -/
def characterNamesField (strings : List String) : Option (List String) :=
  let nameCandidates := strings.filter nameCandFilter
  if nameCandidates ≠ [] then
    some ((pzDedup (nameCandidates.filter likelyNameFilter)).take 10)
  else none

/-- `extracted.professionIds` (`lib`). -/
def professionIdsFieldLib (strings : List String) : Option (List String) :=
  let professions := strings.filter professionFilterLib
  if professions ≠ [] then some (pzDedup professions) else none

/-- `extracted.professionIds` (`part_002`). -/
def professionIdsFieldP2 (strings : List String) : Option (List String) :=
  let professions := strings.filter professionFilterP2
  if professions ≠ [] then some (pzDedup professions) else none

/-- `extracted.traitOrSkillIds` (`lib`; `professionIds` is the already
assigned bucket, or nothing when that bucket is absent). -/
def traitIdsFieldLib (professionIds : Option (List String))
    (strings : List String) : Option (List String) :=
  let traits := strings.filter (traitFilterLib (professionIds.getD []))
  if traits ≠ [] then some ((pzDedup traits).take 50) else none

/-- `extracted.traitOrSkillIds` (`part_002`). -/
def traitIdsFieldP2 (strings : List String) : Option (List String) :=
  let traits := strings.filter traitFilterP2
  if traits ≠ [] then some ((pzDedup traits).take 50) else none

/-- `extracted.statNames` before the skill-level reassignment. -/
def statNamesField (strings : List String) : Option (List String) :=
  let statNames := strings.filter statFilter
  if statNames ≠ [] then some (pzDedup statNames) else none

/-- `extracted.appearance`. -/
def appearanceField (strings : List String) : Option (List String) :=
  let appearance := strings.filter appearanceFilter
  if appearance ≠ [] then some ((pzDedup appearance).take 30) else none

/-- `extracted.clothingTypes`. -/
def clothingTypesField (strings : List String) : Option (List String) :=
  let clothingTypes := strings.filter clothingTypesFilter
  if clothingTypes ≠ [] then some ((pzDedup clothingTypes).take 50) else none

/-- `extracted.clothingCustomNames`. -/
def clothingCustomField (characterNames : Option (List String))
    (strings : List String) : Option (List String) :=
  let l := strings.filter (clothingCustomFilter (characterNames.getD []))
  if l ≠ [] then some ((pzDedup l).take 20) else none

/-- `extracted.inventoryStrings`. -/
def inventoryField (strings : List String) : Option (List String) :=
  let l := strings.filter inventoryFilter
  if l ≠ [] then some ((pzDedup l).take 30) else none

/-- `extracted.recipeIds`. -/
def recipeIdsField (strings : List String) : Option (List String) :=
  let l := strings.filter recipeFilter
  if l ≠ [] then some ((pzDedup l).take 100) else none

/-- `extracted.usernameFromBuffer` (`strings.find(...)`; assigned only when
found, and a found string is truthy since its length is at least 3). -/
def usernameField (known : List String) (strings : List String) :
    Option String :=
  strings.find? (usernameFilter known)

/-- The final `extracted.statNames`: reassigned to the keys of a non-empty
skill-level mapping when the string-derived bucket is absent. -/
def statNamesFinal (statNames : Option (List String))
    (skillLevels : List (String × Int)) : Option (List String) :=
  match statNames with
  | some l => some l
  | none => if skillLevels ≠ [] then some (skillLevels.map Prod.fst) else none

/-- The vehicle-path `extracted` object (identical in both copies):
`vehicleType` is assigned unconditionally (`null` on no match) and
`allStrings` is assigned `undefined` unconditionally. -/
def vehicleFields (b : List Nat) : List (String × FieldVal) :=
  let strings := extractReadableStrings b
  let chars := utf8DecodeList b
  [("vehicleType", match firstDotMatch chars with
    | some s => FieldVal.vstr s
    | none => FieldVal.vnull)] ++
  optF "partNames" ((partNamesField chars).map .vstrs) ++
  optF "customNames" ((customNamesField strings).map .vstrs) ++
  [("allStrings", FieldVal.vundef)]

/-- The player-path `extracted` object of the `lib` copy.  `skillLevels` is
assigned unconditionally (possibly an empty mapping); `statNames` appears at
its first assignment site with its final value (the JS object would place a
reassigned-from-absent `statNames` at the end instead; no claim below
depends on key order). -/
def playerFieldsLib (b : List Nat) : List (String × FieldVal) :=
  let strings := extractReadableStrings b
  let characterNames := characterNamesField strings
  let professionIds := professionIdsFieldLib strings
  let traitOrSkillIds := traitIdsFieldLib professionIds strings
  let statNames := statNamesField strings
  let appearance := appearanceField strings
  let clothingTypes := clothingTypesField strings
  let clothingCustomNames := clothingCustomField characterNames strings
  let inventoryStrings := inventoryField strings
  let recipeIds := recipeIdsField strings
  let known := (statNames.getD []) ++ (characterNames.getD []) ++
    (professionIds.getD []) ++ (traitOrSkillIds.getD []) ++
    ((appearance.getD []).take 10)
  let usernameFromBuffer := usernameField known strings
  let namesForXp := match statNames with
    | some l => l
    | none => KNOWN_PZ_SKILL_NAMES
  let skillXp := extractSkillXpFromBuffer b namesForXp
  let skillLevels := extractSkillLevelsFromBuffer b namesForXp
  optF "characterNames" (characterNames.map .vstrs) ++
  optF "professionIds" (professionIds.map .vstrs) ++
  optF "traitOrSkillIds" (traitOrSkillIds.map .vstrs) ++
  optF "statNames" ((statNamesFinal statNames skillLevels).map .vstrs) ++
  optF "appearance" (appearance.map .vstrs) ++
  optF "clothingTypes" (clothingTypes.map .vstrs) ++
  optF "clothingCustomNames" (clothingCustomNames.map .vstrs) ++
  optF "inventoryStrings" (inventoryStrings.map .vstrs) ++
  optF "recipeIds" (recipeIds.map .vstrs) ++
  optF "usernameFromBuffer" (usernameFromBuffer.map .vstr) ++
  optF "skillXp" (if skillXp ≠ [] then some (.vxp skillXp) else none) ++
  [("skillLevels", FieldVal.vlevels skillLevels)]

/-- The player-path `extracted` object of the `part_002` copy: closed-set
professions, clothing/slot-excluded traits, `decodePlayerSkills` for levels,
and the aggregate `playerLevel` sum. -/
def playerFieldsP2 (b : List Nat) : List (String × FieldVal) :=
  let strings := extractReadableStrings b
  let characterNames := characterNamesField strings
  let professionIds := professionIdsFieldP2 strings
  let traitOrSkillIds := traitIdsFieldP2 strings
  let statNames := statNamesField strings
  let appearance := appearanceField strings
  let clothingTypes := clothingTypesField strings
  let clothingCustomNames := clothingCustomField characterNames strings
  let inventoryStrings := inventoryField strings
  let recipeIds := recipeIdsField strings
  let known := (statNames.getD []) ++ (characterNames.getD []) ++
    (professionIds.getD []) ++ (traitOrSkillIds.getD []) ++
    ((appearance.getD []).take 10)
  let usernameFromBuffer := usernameField known strings
  let namesForXp := match statNames with
    | some l => l
    | none => KNOWN_PZ_SKILL_NAMES
  let skillXp := extractSkillXpFromBuffer b namesForXp
  let skillLevels := decodePlayerSkills b
  optF "characterNames" (characterNames.map .vstrs) ++
  optF "professionIds" (professionIds.map .vstrs) ++
  optF "traitOrSkillIds" (traitOrSkillIds.map .vstrs) ++
  optF "statNames" ((statNamesFinal statNames skillLevels).map .vstrs) ++
  optF "appearance" (appearance.map .vstrs) ++
  optF "clothingTypes" (clothingTypes.map .vstrs) ++
  optF "clothingCustomNames" (clothingCustomNames.map .vstrs) ++
  optF "inventoryStrings" (inventoryStrings.map .vstrs) ++
  optF "recipeIds" (recipeIds.map .vstrs) ++
  optF "usernameFromBuffer" (usernameFromBuffer.map .vstr) ++
  optF "skillXp" (if skillXp ≠ [] then some (.vxp skillXp) else none) ++
  [("skillLevels", FieldVal.vlevels skillLevels)] ++
  optF "playerLevel"
    (if skillLevels ≠ [] then some (.vnum (sumLevels skillLevels)) else none)

/-- `decodePzBuffer(buf, type)` of the `lib` copy (`src/lib/
decode-pz-buffer.js`): `none` models a null/undefined buffer argument; a
plain array argument is coerced byte-wise by `Buffer.from`. -/
def decodePzBuffer (buf : Option (List Nat)) (type : String) :
    ExtractionResult :=
  match buf with
  | none => ⟨type, [], []⟩
  | some bytes =>
    let b := bytes.map (fun x => x % 256)
    if b.length = 0 then ⟨type, [], b⟩
    else if type = "vehicle" then ⟨type, vehicleFields b, b⟩
    else ⟨type, playerFieldsLib b, b⟩

/-- `decodePzBuffer(buf, type)` of the `part_002` copy. -/
def decodePzBufferP2 (buf : Option (List Nat)) (type : String) :
    ExtractionResult :=
  match buf with
  | none => ⟨type, [], []⟩
  | some bytes =>
    let b := bytes.map (fun x => x % 256)
    if b.length = 0 then ⟨type, [], b⟩
    else if type = "vehicle" then ⟨type, vehicleFields b, b⟩
    else ⟨type, playerFieldsP2 b, b⟩

/-! ### Snapshot & Sync Pipeline (`syncFromSnapshots` in `src/index.js`)

The pipeline is modelled as a function from an environment (which configured
paths exist and which I/O steps succeed) and an initial filesystem/cache
state to the sequence of externally visible actions it performs plus the
final state.  The two `sqlite3.Database` open callbacks are serialized in
creation order (vehicles before players), which is the event-loop order for
two independent opens; `mkdir` of the snapshot directory is not an event of
interest and is omitted.  A failed `copyFileSync` leaves the destination
file as it was before the call in this model (in reality it may also leave a
partial file; the claims below only depend on the other, fully copied
snapshot).  Each `callback(err)` of the source is a `report` event
(`true` = error). -/

inductive SyncEv where
  | copyVeh
  | copyPlay
  | openVeh (ok : Bool)
  | openPlay (ok : Bool)
  | closeVeh
  | closePlay
  | unlinkVeh
  | unlinkPlay
  | runSyncVehicles
  | runSyncPlayers
  | report (isErr : Bool)
  deriving DecidableEq, Repr

/-- Which configured paths exist and which I/O steps succeed during one run. -/
structure SyncEnv where
  configPresent : Bool
  vehiclesSrcExists : Bool
  playersSrcExists : Bool
  copyVehiclesOk : Bool
  copyPlayersOk : Bool
  openVehiclesOk : Bool
  openPlayersOk : Bool
  discoverOk : Bool
  syncVehiclesOk : Bool
  syncPlayersOk : Bool

/-- Snapshot files, snapshot database handles, and cache-table generations
(a generation counter bumps whenever the table is cleared/rewritten, so
"unchanged" is generation equality). -/
structure SyncSt where
  vehSnapExists : Bool
  playSnapExists : Bool
  vehDbOpen : Bool
  playDbOpen : Bool
  cacheVehGen : Nat
  cachePlayGen : Nat
  deriving DecidableEq, Repr

/-- The unconditional part of `done`/error cleanup once both snapshot files
were unlinked and both handles closed. -/
def cleanupSt (s : SyncSt) : SyncSt :=
  { s with
    vehSnapExists := false
    playSnapExists := false
    vehDbOpen := false
    playDbOpen := false }

/-- `syncFromSnapshots(callback)`: the event trace and final state of one
run, following the source line by line (existence checks, two synchronous
copies inside one `try`, two async opens, schema discovery, `syncVehicles`
then `syncPlayers` through `cacheDb`, then `done` → close both → unlink both
→ `callback`).  `cacheDb.syncVehicles`/`syncPlayers` clear their table
before inserting, so a failing sync step still bumps the generation. -/
def syncFromSnapshotsRun (env : SyncEnv) (s0 : SyncSt) :
    List SyncEv × SyncSt :=
  if env.configPresent = false then ([.report false], s0)
  else if env.vehiclesSrcExists = false then ([.report true], s0)
  else if env.playersSrcExists = false then ([.report true], s0)
  else if env.copyVehiclesOk = false then ([.copyVeh, .report true], s0)
  else
    let s1 := { s0 with vehSnapExists := true }
    if env.copyPlayersOk = false then
      ([.copyVeh, .copyPlay, .report true], s1)
    else
      let s2 := { s1 with playSnapExists := true }
      if env.openVehiclesOk = false then
        if env.openPlayersOk = false then
          ([.copyVeh, .copyPlay, .openVeh false, .unlinkVeh, .unlinkPlay,
            .report true, .openPlay false, .closeVeh, .unlinkVeh,
            .unlinkPlay, .report true],
           { s2 with
             vehSnapExists := false
             playSnapExists := false })
        else
          ([.copyVeh, .copyPlay, .openVeh false, .unlinkVeh, .unlinkPlay,
            .report true, .openPlay true],
           { s2 with
             vehSnapExists := false
             playSnapExists := false
             playDbOpen := true })
      else
        let s3 := { s2 with vehDbOpen := true }
        if env.openPlayersOk = false then
          ([.copyVeh, .copyPlay, .openVeh true, .openPlay false, .closeVeh,
            .unlinkVeh, .unlinkPlay, .report true],
           { s3 with
             vehDbOpen := false
             vehSnapExists := false
             playSnapExists := false })
        else
          let s4 := { s3 with playDbOpen := true }
          let pre : List SyncEv := [.copyVeh, .copyPlay, .openVeh true,
            .openPlay true]
          if env.discoverOk = false then
            (pre ++ [.closeVeh, .closePlay, .unlinkVeh, .unlinkPlay,
              .report true], cleanupSt s4)
          else if env.syncVehiclesOk = false then
            (pre ++ [.runSyncVehicles, .closeVeh, .closePlay, .unlinkVeh,
              .unlinkPlay, .report true],
             cleanupSt { s4 with cacheVehGen := s4.cacheVehGen + 1 })
          else if env.syncPlayersOk = false then
            (pre ++ [.runSyncVehicles, .runSyncPlayers, .closeVeh,
              .closePlay, .unlinkVeh, .unlinkPlay, .report true],
             cleanupSt { s4 with
               cacheVehGen := s4.cacheVehGen + 1
               cachePlayGen := s4.cachePlayGen + 1 })
          else
            (pre ++ [.runSyncVehicles, .runSyncPlayers, .closeVeh,
              .closePlay, .unlinkVeh, .unlinkPlay, .report false],
             cleanupSt { s4 with
               cacheVehGen := s4.cacheVehGen + 1
               cachePlayGen := s4.cachePlayGen + 1 })

/-- Is an event a `callback` invocation? -/
def isReport : SyncEv → Bool
  | .report _ => true
  | _ => false

/-! ### Concrete test buffers -/

/-- The UTF-8 bytes of `"Fitness"`. -/
def fitnessBytes : List Nat := [70, 105, 116, 110, 101, 115, 115]

/-- Two occurrences of `"Fitness"`, the first followed by big-endian level
bytes for 3, the second by level bytes for 5 (the spec's own scenario). -/
def fitBuf35 : List Nat := fitnessBytes ++ [0, 0, 0, 3] ++ fitnessBytes ++ [0, 0, 0, 5]

/-- Two occurrences of `"Fitness"`, levels 5 then 3. -/
def fitBuf53 : List Nat := fitnessBytes ++ [0, 0, 0, 5] ++ fitnessBytes ++ [0, 0, 0, 3]

/-- A buffer containing the strings `"base:burglar"` and `"base:belt"` as
NUL-terminated printable runs. -/
def beltBuf : List Nat :=
  [98, 97, 115, 101, 58, 98, 117, 114, 103, 108, 97, 114, 0,
   98, 97, 115, 101, 58, 98, 101, 108, 116, 0]

/-- `"Strength"` followed by one zero byte and a 4-byte big-endian 7 (the
spec's pattern-A scenario). -/
def strengthBuf : List Nat :=
  [83, 116, 114, 101, 110, 103, 116, 104, 0, 0, 0, 0, 7]

/-- A 2-byte length prefix declaring length 2 over the payload `"Hi"`. -/
def lpGoodBuf : List Nat := [0, 2, 72, 105]

/-- A 2-byte length prefix declaring length 2 over the two UTF-8 bytes of
`é` (0xC3 0xA9), which decode to a single character, so the declared length
disagrees with the decoded character count. -/
def lpBadBuf : List Nat := [0, 2, 195, 169]

/-- A detected field value: non-null, non-undefined, and non-empty (the
notion of "detected" in the sparsity claim). -/
def fieldDetected : FieldVal → Prop
  | .vstr s => s ≠ ""
  | .vstrs l => l ≠ []
  | .vnum _ => True
  | .vlevels m => m ≠ []
  | .vxp m => m ≠ []
  | .vnull => False
  | .vundef => False

/-- An environment in which everything succeeds except the copy of the
players database into the snapshot directory. -/
def envCopyPlayersFails : SyncEnv :=
  ⟨true, true, true, true, false, true, true, true, true, true⟩

/-- An environment in which every step succeeds. -/
def envAllOk : SyncEnv :=
  ⟨true, true, true, true, true, true, true, true, true, true⟩

/-- An environment with the configured vehicles database path missing. -/
def envVehiclesMissing : SyncEnv :=
  ⟨true, false, true, true, true, true, true, true, true, true⟩

/-- An initial state: no snapshot files, no open handles, cache at
generation 4 and 7 (so that "unchanged" is visible). -/
def st0 : SyncSt := ⟨false, false, false, false, 4, 7⟩

/-! ### Association-list helper lemmas -/

theorem dScale_eq : dScale = 2 ^ 1074 := by norm_num [dScale]

theorem skip0_ge (buf : List Nat) (e : Nat) : e ≤ skip0 buf e := by
  unfold skip0; split <;> omega

theorem partMatchAt_pos (cs : List Char) (i : Nat) (m : String)
    (h : partMatchAt cs i = some m) : 0 < m.length := by
  unfold partMatchAt at h
  rcases hf : partLits.find? (fun lit => lit.data.isPrefixOf (cs.drop i)) with _ | lit
  · rw [hf] at h
    simp only at h
    split at h
    · split at h
      · rename_i ht
        cases h
        simp only [String.length_append]
        have : 0 < "Base.".length := by decide
        omega
      · exact absurd h (by simp)
    · exact absurd h (by simp)
  · rw [hf] at h
    simp only [Option.some.injEq] at h
    subst h
    have hm := List.mem_of_find?_eq_some hf
    fin_cases hm <;> decide


theorem lookup_append {α β : Type} [BEq α] (a : α) (l₁ l₂ : List (α × β)) :
    List.lookup a (l₁ ++ l₂) =
      (List.lookup a l₁).or (List.lookup a l₂) := by
  induction l₁ with
  | nil => simp
  | cons p l ih =>
    rcases p with ⟨k, v⟩
    by_cases h : a == k
    · simp [List.lookup, h]
    · simp only [List.cons_append, List.lookup]
      rw [Bool.not_eq_true] at h
      rw [h]
      exact ih

theorem lookup_optF_ne (a k : String) (v : Option FieldVal)
    (h : a ≠ k) : List.lookup a (optF k v) = none := by
  cases v with
  | none => simp [optF]
  | some x =>
    simp only [optF, List.lookup]
    rw [show (a == k) = false from by simpa using h]

theorem lookup_optF_self (k : String) (v : Option FieldVal) :
    List.lookup k (optF k v) = v := by
  cases v with
  | none => simp [optF]
  | some x => simp [optF, List.lookup]

theorem lookup_optF_skip (a k : String) (v : Option FieldVal)
    (rest : List (String × FieldVal)) (h : a ≠ k) :
    List.lookup a (optF k v ++ rest) = List.lookup a rest := by
  rw [lookup_append, lookup_optF_ne a k v h, Option.none_or]

theorem lookup_cons_ne {β : Type} (a k : String) (v : β)
    (rest : List (String × β)) (h : a ≠ k) :
    List.lookup a ((k, v) :: rest) = List.lookup a rest := by
  simp only [List.lookup]
  rw [show (a == k) = false from by simpa using h]

theorem mem_optF (k : String) (v : Option FieldVal) (p : String × FieldVal)
    (h : p ∈ optF k v) : p.1 = k ∧ v = some p.2 := by
  cases v with
  | none => simp [optF] at h
  | some x =>
    simp only [optF, List.mem_singleton] at h
    subst h
    exact ⟨rfl, rfl⟩

theorem pzDedup_ne_nil {α : Type} [DecidableEq α] (l : List α)
    (h : l ≠ []) : pzDedup l ≠ [] := by
  cases l with
  | nil => exact absurd rfl h
  | cons a t => simp [pzDedup, pzDedupAux]

theorem take_ne_nil_of_ne_nil {α : Type} (l : List α) (n : Nat)
    (hn : n ≠ 0) (h : l ≠ []) : l.take n ≠ [] := by
  rw [Ne, List.take_eq_nil_iff]
  tauto

/-! ### Range lemmas for the skill scanners -/

theorem candA_bound (buf : List Nat) (after : Nat) (l : Int)
    (h : candA buf after = some l) : 0 ≤ l ∧ l ≤ 10 := by
  unfold candA at h
  split at h
  · split at h
    · rename_i hv
      cases h
      constructor
      · exact Int.natCast_nonneg _
      · exact_mod_cast hv
    · exact absurd h (by simp)
  · exact absurd h (by simp)

theorem candB_bound (buf : List Nat) (after : Nat) (l : Int)
    (h : candB buf after = some l) : 0 ≤ l ∧ l ≤ 10 := by
  unfold candB at h
  split at h
  · split at h
    · rename_i hv
      cases h
      exact ⟨Int.natCast_nonneg _, by exact_mod_cast hv⟩
    · exact absurd h (by simp)
  · exact absurd h (by simp)

theorem candC_bound (buf : List Nat) (after : Nat) (l : Int)
    (h : candC buf after = some l) : 0 ≤ l ∧ l ≤ 10 := by
  unfold candC at h
  split at h
  · split at h
    · rename_i hv
      cases h
      exact ⟨Int.natCast_nonneg _, by exact_mod_cast hv⟩
    · exact absurd h (by simp)
  · exact absurd h (by simp)

theorem candD_bound (buf : List Nat) (after : Nat) (l : Int)
    (h : candD buf after = some l) : 0 ≤ l ∧ l ≤ 10 := by
  unfold candD at h
  split at h
  · dsimp only at h
    split at h
    · rename_i hv
      cases h
      have hpow : (0 : Int) < (dScale : Int) := by
        have hn : (0 : Nat) < dScale := by
          rw [dScale_eq]
          exact pow_pos (by norm_num) 1074
        exact_mod_cast hn
      rcases hv.2.2.2 with ⟨k, hk⟩
      constructor
      · exact Int.ediv_nonneg hv.2.1 hpow.le
      · rw [hk, Int.mul_ediv_cancel_left _ (ne_of_gt hpow)]
        have h10 := hv.2.2.1
        rw [hk, mul_comm 10 ((dScale : Nat) : Int)] at h10
        exact le_of_mul_le_mul_left h10 hpow
    · exact absurd h (by simp)
  · exact absurd h (by simp)

theorem candidateAt_bound (buf : List Nat) (after : Nat) (l : Int)
    (h : candidateAt buf after = some l) : 0 ≤ l ∧ l ≤ 10 := by
  unfold candidateAt at h
  rcases ha : candA buf after with _ | la
  · rw [ha] at h
    simp only at h
    rcases hb : candB buf after with _ | lb
    · rw [hb] at h
      simp only at h
      rcases hc : candC buf after with _ | lc
      · rw [hc] at h
        simp only at h
        exact candD_bound buf after l h
      · rw [hc] at h
        simp only [Option.some.injEq] at h
        subst h
        exact candC_bound buf after _ hc
    · rw [hb] at h
      simp only [Option.some.injEq] at h
      subst h
      exact candB_bound buf after _ hb
  · rw [ha] at h
    simp only [Option.some.injEq] at h
    subst h
    exact candA_bound buf after _ ha

theorem scanNameF_bound (buf nb : List Nat) (fuel : Nat) :
    ∀ (i : Nat) (l : Int), scanNameF buf nb fuel i = some l →
      0 ≤ l ∧ l ≤ 10 := by
  induction fuel with
  | zero => intro i l h; exact absurd h (by simp [scanNameF])
  | succ fuel ih =>
    intro i l h
    rw [scanNameF] at h
    split at h
    · split at h
      · rcases hc : candidateAt buf (i + nb.length) with _ | lv
        · rw [hc] at h
          simp only at h
          exact ih (i + nb.length + 1) l h
        · rw [hc] at h
          simp only [Option.some.injEq] at h
          subst h
          exact candidateAt_bound buf (i + nb.length) _ hc
      · exact ih (i + 1) l h
    · exact absurd h (by simp)

theorem scanName_bound (buf nb : List Nat) (i : Nat) (l : Int)
    (h : scanName buf nb i = some l) : 0 ≤ l ∧ l ≤ 10 :=
  scanNameF_bound buf nb (buf.length + 1 - i) i l h

theorem lookup_singleton {β : Type} (a k : String) (v : β) :
    List.lookup a [(k, v)] = if a = k then some v else none := by
  by_cases h : a = k
  · subst h
    simp [List.lookup]
  · simp only [List.lookup]
    rw [show (a == k) = false from by simpa using h]
    simp [h]

theorem levelsFold_bound (buf : List Nat) (names : List String) :
    ∀ (acc : List (String × Int)),
      (∀ n l, List.lookup n acc = some l → 0 ≤ l ∧ l ≤ 10) →
      ∀ n l, List.lookup n (names.foldl (levelStep buf) acc) = some l →
        0 ≤ l ∧ l ≤ 10 := by
  induction names with
  | nil => intro acc hacc n l h; exact hacc n l h
  | cons name rest ih =>
    intro acc hacc n l h
    refine ih (levelStep buf acc name) ?_ n l h
    intro n' l' h'
    unfold levelStep at h'
    split at h'
    · exact hacc n' l' h'
    · rcases hs : scanName buf (utf8Encode name) 0 with _ | lv
      · rw [hs] at h'
        exact hacc n' l' h'
      · rw [hs] at h'
        rw [lookup_append, lookup_singleton] at h'
        rcases ha : List.lookup n' acc with _ | v₀
        · rw [ha] at h'
          simp only [Option.none_or] at h'
          split at h'
          · cases h'
            exact scanName_bound buf (utf8Encode name) 0 _ hs
          · exact absurd h' (by simp)
        · rw [ha] at h'
          simp only [Option.or] at h'
          cases h'
          exact hacc n' _ ha

theorem dpsFold_bound (buf : List Nat) (names : List String) :
    ∀ (acc : List (String × Int)),
      (∀ n l, List.lookup n acc = some l → 0 ≤ l ∧ l ≤ 10) →
      ∀ n l, List.lookup n (names.foldl (dpsStep buf) acc) = some l →
        0 ≤ l ∧ l ≤ 10 := by
  induction names with
  | nil => intro acc hacc n l h; exact hacc n l h
  | cons skill rest ih =>
    intro acc hacc n l h
    refine ih (dpsStep buf acc skill) ?_ n l h
    intro n' l' h'
    unfold dpsStep at h'
    rcases hp : lastMatchPos buf (utf8Encode skill) with _ | idx
    · rw [hp] at h'
      exact hacc n' l' h'
    · rw [hp] at h'
      simp only at h'
      split at h'
      · split at h'
        · rename_i hrange
          rw [lookup_append, lookup_singleton] at h'
          rcases ha : List.lookup n' acc with _ | v₀
          · rw [ha] at h'
            simp only [Option.none_or] at h'
            split at h'
            · cases h'
              exact hrange
            · exact absurd h' (by simp)
          · rw [ha] at h'
            simp only [Option.or] at h'
            cases h'
            exact hacc n' _ ha
        · exact hacc n' l' h'
      · rw [lookup_append, lookup_singleton] at h'
        rcases ha : List.lookup n' acc with _ | v₀
        · rw [ha] at h'
          simp only [Option.none_or] at h'
          split at h'
          · cases h'
            exact ⟨le_refl 0, by norm_num⟩
          · exact absurd h' (by simp)
        · rw [ha] at h'
          simp only [Option.or] at h'
          cases h'
          exact hacc n' _ ha

/-! ### Field non-emptiness lemmas (for the sparsity claim) -/

theorem guardDedupTake_ne_nil (xs : List String) (n : Nat) (hn : n ≠ 0)
    (l : List String)
    (h : (if xs ≠ [] then some ((pzDedup xs).take n) else none) = some l) :
    l ≠ [] := by
  split at h
  · cases h
    exact take_ne_nil_of_ne_nil _ n hn (pzDedup_ne_nil xs (by assumption))
  · exact absurd h (by simp)

theorem guardDedup_ne_nil (xs : List String) (l : List String)
    (h : (if xs ≠ [] then some (pzDedup xs) else none) = some l) : l ≠ [] := by
  split at h
  · cases h
    exact pzDedup_ne_nil xs (by assumption)
  · exact absurd h (by simp)

theorem guardId_ne_nil (xs : List String) (l : List String)
    (h : (if xs ≠ [] then some xs else none) = some l) : l ≠ [] := by
  split at h
  · cases h
    assumption
  · exact absurd h (by simp)

theorem partNamesField_ne_nil (chars : List Char) (l : List String)
    (h : partNamesField chars = some l) : l ≠ [] := by
  unfold partNamesField at h
  exact guardId_ne_nil _ l h

theorem customNamesField_ne_nil (strings : List String) (l : List String)
    (h : customNamesField strings = some l) : l ≠ [] := by
  unfold customNamesField at h
  exact guardDedupTake_ne_nil _ 20 (by norm_num) l h

theorem professionIdsFieldLib_ne_nil (strings : List String) (l : List String)
    (h : professionIdsFieldLib strings = some l) : l ≠ [] := by
  unfold professionIdsFieldLib at h
  exact guardDedup_ne_nil _ l h

theorem professionIdsFieldP2_ne_nil (strings : List String) (l : List String)
    (h : professionIdsFieldP2 strings = some l) : l ≠ [] := by
  unfold professionIdsFieldP2 at h
  exact guardDedup_ne_nil _ l h

theorem traitIdsFieldLib_ne_nil (p : Option (List String))
    (strings : List String) (l : List String)
    (h : traitIdsFieldLib p strings = some l) : l ≠ [] := by
  unfold traitIdsFieldLib at h
  exact guardDedupTake_ne_nil _ 50 (by norm_num) l h

theorem traitIdsFieldP2_ne_nil (strings : List String) (l : List String)
    (h : traitIdsFieldP2 strings = some l) : l ≠ [] := by
  unfold traitIdsFieldP2 at h
  exact guardDedupTake_ne_nil _ 50 (by norm_num) l h

theorem statNamesField_ne_nil (strings : List String) (l : List String)
    (h : statNamesField strings = some l) : l ≠ [] := by
  unfold statNamesField at h
  exact guardDedup_ne_nil _ l h

theorem appearanceField_ne_nil (strings : List String) (l : List String)
    (h : appearanceField strings = some l) : l ≠ [] := by
  unfold appearanceField at h
  exact guardDedupTake_ne_nil _ 30 (by norm_num) l h

theorem clothingTypesField_ne_nil (strings : List String) (l : List String)
    (h : clothingTypesField strings = some l) : l ≠ [] := by
  unfold clothingTypesField at h
  exact guardDedupTake_ne_nil _ 50 (by norm_num) l h

theorem clothingCustomField_ne_nil (c : Option (List String))
    (strings : List String) (l : List String)
    (h : clothingCustomField c strings = some l) : l ≠ [] := by
  unfold clothingCustomField at h
  exact guardDedupTake_ne_nil _ 20 (by norm_num) l h

theorem inventoryField_ne_nil (strings : List String) (l : List String)
    (h : inventoryField strings = some l) : l ≠ [] := by
  unfold inventoryField at h
  exact guardDedupTake_ne_nil _ 30 (by norm_num) l h

theorem recipeIdsField_ne_nil (strings : List String) (l : List String)
    (h : recipeIdsField strings = some l) : l ≠ [] := by
  unfold recipeIdsField at h
  exact guardDedupTake_ne_nil _ 100 (by norm_num) l h

theorem statNamesFinal_ne_nil (strings : List String)
    (sl : List (String × Int)) (l : List String)
    (h : statNamesFinal (statNamesField strings) sl = some l) : l ≠ [] := by
  unfold statNamesFinal at h
  rcases hs : statNamesField strings with _ | l'
  · rw [hs] at h
    simp only at h
    split at h
    · cases h
      simp only [Ne, List.map_eq_nil_iff]
      assumption
    · exact absurd h (by simp)
  · rw [hs] at h
    simp only [Option.some.injEq] at h
    subst h
    exact statNamesField_ne_nil strings _ hs

theorem usernameField_ne_empty (known strings : List String) (s : String)
    (h : usernameField known strings = some s) : s ≠ "" := by
  have hp := List.find?_some h
  unfold usernameFilter at hp
  simp only [Bool.and_eq_true, decide_eq_true_eq] at hp
  intro heq
  subst heq
  have := hp.1.1.1.1.1.1
  simp at this

theorem guardXp_detected (xs : List (String × List Int)) (v : FieldVal)
    (h : (if xs ≠ [] then some (FieldVal.vxp xs) else none) = some v) :
    fieldDetected v := by
  split at h
  · cases h
    simpa [fieldDetected] using by assumption
  · exact absurd h (by simp)

theorem vehicleFields_detected (b : List Nat) (k : String) (v : FieldVal)
    (hk1 : k ≠ "vehicleType") (hk2 : k ≠ "allStrings")
    (h : (k, v) ∈ vehicleFields b) : fieldDetected v := by
  dsimp only [vehicleFields] at h
  simp only [List.append_assoc, List.singleton_append] at h
  simp only [List.mem_append, List.mem_cons, List.mem_singleton,
    List.not_mem_nil, or_false, Prod.mk.injEq] at h
  rcases h with (⟨hk, _⟩ | h) | h | ⟨hk, _⟩
  · exact absurd hk hk1
  · rcases mem_optF _ _ _ h with ⟨hk, hv⟩
    rcases Option.map_eq_some'.mp hv with ⟨l, hl, hvv⟩
    subst hvv
    exact partNamesField_ne_nil _ l hl
  · rcases mem_optF _ _ _ h with ⟨hk, hv⟩
    rcases Option.map_eq_some'.mp hv with ⟨l, hl, hvv⟩
    subst hvv
    exact customNamesField_ne_nil _ l hl
  · exact absurd hk hk2

theorem playerFieldsLib_detected (b : List Nat) (k : String) (v : FieldVal)
    (hk3 : k ≠ "skillLevels") (hk4 : k ≠ "characterNames")
    (h : (k, v) ∈ playerFieldsLib b) : fieldDetected v := by
  dsimp only [playerFieldsLib] at h
  simp only [List.append_assoc, List.singleton_append] at h
  simp only [List.mem_append, List.mem_cons, List.mem_singleton,
    List.not_mem_nil, or_false, Prod.mk.injEq] at h
  rcases h with h | h | h | h | h | h | h | h | h | h | h | ⟨hk, _⟩
  · rcases mem_optF _ _ _ h with ⟨hk, _⟩
    exact absurd hk hk4
  · rcases mem_optF _ _ _ h with ⟨hk, hv⟩
    rcases Option.map_eq_some'.mp hv with ⟨l, hl, hvv⟩
    subst hvv
    exact professionIdsFieldLib_ne_nil _ l hl
  · rcases mem_optF _ _ _ h with ⟨hk, hv⟩
    rcases Option.map_eq_some'.mp hv with ⟨l, hl, hvv⟩
    subst hvv
    exact traitIdsFieldLib_ne_nil _ _ l hl
  · rcases mem_optF _ _ _ h with ⟨hk, hv⟩
    rcases Option.map_eq_some'.mp hv with ⟨l, hl, hvv⟩
    subst hvv
    exact statNamesFinal_ne_nil _ _ l hl
  · rcases mem_optF _ _ _ h with ⟨hk, hv⟩
    rcases Option.map_eq_some'.mp hv with ⟨l, hl, hvv⟩
    subst hvv
    exact appearanceField_ne_nil _ l hl
  · rcases mem_optF _ _ _ h with ⟨hk, hv⟩
    rcases Option.map_eq_some'.mp hv with ⟨l, hl, hvv⟩
    subst hvv
    exact clothingTypesField_ne_nil _ l hl
  · rcases mem_optF _ _ _ h with ⟨hk, hv⟩
    rcases Option.map_eq_some'.mp hv with ⟨l, hl, hvv⟩
    subst hvv
    exact clothingCustomField_ne_nil _ _ l hl
  · rcases mem_optF _ _ _ h with ⟨hk, hv⟩
    rcases Option.map_eq_some'.mp hv with ⟨l, hl, hvv⟩
    subst hvv
    exact inventoryField_ne_nil _ l hl
  · rcases mem_optF _ _ _ h with ⟨hk, hv⟩
    rcases Option.map_eq_some'.mp hv with ⟨l, hl, hvv⟩
    subst hvv
    exact recipeIdsField_ne_nil _ l hl
  · rcases mem_optF _ _ _ h with ⟨hk, hv⟩
    rcases Option.map_eq_some'.mp hv with ⟨s, hs, hvv⟩
    subst hvv
    exact usernameField_ne_empty _ _ s hs
  · rcases mem_optF _ _ _ h with ⟨hk, hv⟩
    exact guardXp_detected _ _ hv
  · exact absurd hk hk3

theorem playerFieldsP2_detected (b : List Nat) (k : String) (v : FieldVal)
    (hk3 : k ≠ "skillLevels") (hk4 : k ≠ "characterNames")
    (h : (k, v) ∈ playerFieldsP2 b) : fieldDetected v := by
  dsimp only [playerFieldsP2] at h
  simp only [List.append_assoc, List.singleton_append] at h
  simp only [List.mem_append, List.mem_cons, List.mem_singleton,
    List.not_mem_nil, or_false, Prod.mk.injEq] at h
  rcases h with h | h | h | h | h | h | h | h | h | h | h | ⟨hk, _⟩ | h
  · rcases mem_optF _ _ _ h with ⟨hk, _⟩
    exact absurd hk hk4
  · rcases mem_optF _ _ _ h with ⟨hk, hv⟩
    rcases Option.map_eq_some'.mp hv with ⟨l, hl, hvv⟩
    subst hvv
    exact professionIdsFieldP2_ne_nil _ l hl
  · rcases mem_optF _ _ _ h with ⟨hk, hv⟩
    rcases Option.map_eq_some'.mp hv with ⟨l, hl, hvv⟩
    subst hvv
    exact traitIdsFieldP2_ne_nil _ l hl
  · rcases mem_optF _ _ _ h with ⟨hk, hv⟩
    rcases Option.map_eq_some'.mp hv with ⟨l, hl, hvv⟩
    subst hvv
    exact statNamesFinal_ne_nil _ _ l hl
  · rcases mem_optF _ _ _ h with ⟨hk, hv⟩
    rcases Option.map_eq_some'.mp hv with ⟨l, hl, hvv⟩
    subst hvv
    exact appearanceField_ne_nil _ l hl
  · rcases mem_optF _ _ _ h with ⟨hk, hv⟩
    rcases Option.map_eq_some'.mp hv with ⟨l, hl, hvv⟩
    subst hvv
    exact clothingTypesField_ne_nil _ l hl
  · rcases mem_optF _ _ _ h with ⟨hk, hv⟩
    rcases Option.map_eq_some'.mp hv with ⟨l, hl, hvv⟩
    subst hvv
    exact clothingCustomField_ne_nil _ _ l hl
  · rcases mem_optF _ _ _ h with ⟨hk, hv⟩
    rcases Option.map_eq_some'.mp hv with ⟨l, hl, hvv⟩
    subst hvv
    exact inventoryField_ne_nil _ l hl
  · rcases mem_optF _ _ _ h with ⟨hk, hv⟩
    rcases Option.map_eq_some'.mp hv with ⟨l, hl, hvv⟩
    subst hvv
    exact recipeIdsField_ne_nil _ l hl
  · rcases mem_optF _ _ _ h with ⟨hk, hv⟩
    rcases Option.map_eq_some'.mp hv with ⟨s, hs, hvv⟩
    subst hvv
    exact usernameField_ne_empty _ _ s hs
  · rcases mem_optF _ _ _ h with ⟨hk, hv⟩
    exact guardXp_detected _ _ hv
  · exact absurd hk hk3
  · rcases mem_optF _ _ _ h with ⟨hk, hv⟩
    split at hv
    · cases hv
      trivial
    · exact absurd hv (by simp)

/-! ## Claim theorems -/

/-- C1 (counterexample): the claim says a buffer with two occurrences of
"Fitness", the first followed by level bytes for 3 and the second by level
bytes for 5, yields level 5 (the maximum).  The `lib` Skill Level Scanner
actually yields 3: it stops at the first occurrence with an individually
valid candidate (`skillLevels[name] = level; break`). -/
theorem C1_first_occurrence_counterexample :
    List.lookup "Fitness" (extractSkillLevelsFromBuffer fitBuf35 ["Fitness"]) =
      some 3 ∧
    List.lookup "Fitness" (extractSkillLevelsFromBuffer fitBuf35 ["Fitness"]) ≠
      some 5 := by
  constructor
  · decide
  · decide

/-- C1 (amended): neither scanner takes the maximum across occurrences.
The `lib` scanner (`extractSkillLevelsFromBuffer`) emits the level of the
first-scanned occurrence with an individually valid candidate — whenever
the name bytes match at the current scan position and a layout yields a
valid level there, the scan stops with that level, ignoring every later
occurrence; concretely, the two-occurrence Fitness buffer with candidates 3
then 5 yields 3, and with 5 then 3 yields 5.  `decodePlayerSkills` of
`part_002` reads only the last occurrence of each name: the 5-then-3 buffer
yields 3 there. -/
theorem C1_first_and_last_occurrence_behaviour :
    (∀ (buf nb : List Nat) (i : Nat) (l : Int),
      i + nb.length + 4 ≤ buf.length →
      listExtract buf i (i + nb.length) = nb →
      candidateAt buf (i + nb.length) = some l →
      scanName buf nb i = some l) ∧
    List.lookup "Fitness" (extractSkillLevelsFromBuffer fitBuf35 ["Fitness"]) =
      some 3 ∧
    List.lookup "Fitness" (extractSkillLevelsFromBuffer fitBuf53 ["Fitness"]) =
      some 5 ∧
    List.lookup "Fitness" (decodePlayerSkills fitBuf53) = some 3 := by
  refine ⟨?_, by decide, by decide, by decide⟩
  intro buf nb i l hb hm hc
  unfold scanName
  have hf : buf.length + 1 - i = (buf.length - i) + 1 := by omega
  rw [hf, scanNameF, if_pos hb, if_pos hm, hc]

/-- C1 amended-claim witness: the first-valid-occurrence law applied at the
first Fitness occurrence of the 3-then-5 buffer. -/
theorem C1_first_and_last_occurrence_behaviour_witness :
    scanName fitBuf35 fitnessBytes 0 = some 3 :=
  C1_first_and_last_occurrence_behaviour.1 fitBuf35 fitnessBytes 0 3
    (by decide) (by decide) (by decide)

/-- C2: the Blob Decoder (both copies) is defined on every input, and on a
null or zero-length buffer returns the record type together with an empty
extracted-field mapping and an empty raw byte sequence; never throwing is
witnessed by the embedding being a total function (the null/empty early
return precedes the `try` block in the source). -/
theorem C2_null_and_empty_buffer (t : String) :
    decodePzBuffer none t = ⟨t, [], []⟩ ∧
    decodePzBuffer (some []) t = ⟨t, [], []⟩ ∧
    decodePzBufferP2 none t = ⟨t, [], []⟩ ∧
    decodePzBufferP2 (some []) t = ⟨t, [], []⟩ :=
  ⟨rfl, rfl, rfl, rfl⟩

/-- C3: decoding the same buffer with the same type tag twice produces
bit-identical results.  In this embedding both decoders are pure functions
of `(buffer, type)` alone — the source reads no other state that influences
the result (the `DEBUG_PZ_DECODE` environment flag only adds logging) — so
determinism is function application equality. -/
theorem C3_decoder_deterministic (b : Option (List Nat)) (t : String) :
    decodePzBuffer b t = decodePzBuffer b t ∧
    decodePzBufferP2 b t = decodePzBufferP2 b t :=
  ⟨rfl, rfl⟩

/-- C6: every level emitted by either Skill Level Scanner is an integer in
the closed range `[0, 10]`: the `lib` scanner's four candidate layouts each
check the range before acceptance, and `decodePlayerSkills` checks
`0 ≤ v ≤ 10` (its out-of-range-read catch stores 0). -/
theorem C6_levels_in_range :
    (∀ (buf : List Nat) (names : List String) (n : String) (l : Int),
      List.lookup n (extractSkillLevelsFromBuffer buf names) = some l →
        0 ≤ l ∧ l ≤ 10) ∧
    (∀ (buf : List Nat) (n : String) (l : Int),
      List.lookup n (decodePlayerSkills buf) = some l → 0 ≤ l ∧ l ≤ 10) := by
  constructor
  · intro buf names n l h
    unfold extractSkillLevelsFromBuffer at h
    split at h
    · exact absurd h (by simp)
    · exact levelsFold_bound buf names [] (by intro n' l' h'; simp at h') n l h
  · intro buf n l h
    unfold decodePlayerSkills at h
    exact dpsFold_bound buf P2_SKILLS [] (by intro n' l' h'; simp at h') n l h

/-- C6 witness: concrete levels read by each scanner are in range. -/
theorem C6_levels_in_range_witness :
    ((0 : Int) ≤ 5 ∧ (5 : Int) ≤ 10) ∧ ((0 : Int) ≤ 3 ∧ (3 : Int) ≤ 10) :=
  ⟨C6_levels_in_range.1 fitBuf53 ["Fitness"] "Fitness" 5 (by decide),
   C6_levels_in_range.2 fitBuf53 "Fitness" 3 (by decide)⟩

/-- C10 (counterexample): the claim says every key present in the extracted
mapping is bound to a detected, non-null, non-undefined value.  Decoding the
non-empty one-byte buffer `[0x41]` as a vehicle yields a mapping that binds
`vehicleType` to `null` and `allStrings` to `undefined` (both keys assigned
unconditionally by the source). -/
theorem C10_placeholder_values_counterexample :
    (decodePzBuffer (some [65]) "vehicle").extracted =
      [("vehicleType", FieldVal.vnull), ("allStrings", FieldVal.vundef)] := by
  decide

/-- C10 (amended): the extracted mapping is sparse with detected (non-null,
non-undefined, non-empty) values for every key EXCEPT the four that the
source assigns outside a detection guard: `vehicleType` (always present,
`null` on no match), `allStrings` (always `undefined`), `skillLevels`
(always present, possibly an empty mapping), and `characterNames` (guarded
by the raw candidate list but holding the separately filtered likely-name
list, which can be empty).  This holds for both decoder copies. -/
theorem C10_sparse_fields_detected (buf : Option (List Nat)) (t : String)
    (k : String) (v : FieldVal) (hk1 : k ≠ "vehicleType")
    (hk2 : k ≠ "allStrings") (hk3 : k ≠ "skillLevels")
    (hk4 : k ≠ "characterNames") :
    ((k, v) ∈ (decodePzBuffer buf t).extracted → fieldDetected v) ∧
    ((k, v) ∈ (decodePzBufferP2 buf t).extracted → fieldDetected v) := by
  constructor
  · intro h
    rcases buf with _ | bytes
    · simp [decodePzBuffer] at h
    · dsimp only [decodePzBuffer] at h
      split at h
      · simp at h
      · split at h
        · exact vehicleFields_detected _ k v hk1 hk2 h
        · exact playerFieldsLib_detected _ k v hk3 hk4 h
  · intro h
    rcases buf with _ | bytes
    · simp [decodePzBufferP2] at h
    · dsimp only [decodePzBufferP2] at h
      split at h
      · simp at h
      · split at h
        · exact vehicleFields_detected _ k v hk1 hk2 h
        · exact playerFieldsP2_detected _ k v hk3 hk4 h

/-- C10 witness: a concretely detected field (the profession bucket of the
belt buffer) satisfies the amended sparsity property. -/
theorem C10_sparse_fields_detected_witness :
    fieldDetected (FieldVal.vstrs ["base:burglar", "base:belt"]) ∧
    fieldDetected (FieldVal.vstrs ["base:burglar"]) :=
  ⟨(C10_sparse_fields_detected (some beltBuf) "player" "professionIds"
      (FieldVal.vstrs ["base:burglar", "base:belt"]) (by decide) (by decide)
      (by decide) (by decide)).1 (by decide),
   (C10_sparse_fields_detected (some beltBuf) "player" "professionIds"
      (FieldVal.vstrs ["base:burglar"]) (by decide) (by decide) (by decide)
      (by decide)).2 (by decide)⟩

/-- The `playerLevel` entry of the `part_002` player field assembly. -/
theorem lookup_playerLevel_P2 (b : List Nat) :
    List.lookup "playerLevel" (playerFieldsP2 b) =
      (if decodePlayerSkills b ≠ [] then
        some (FieldVal.vnum (sumLevels (decodePlayerSkills b)))
      else none) := by
  dsimp only [playerFieldsP2]
  simp only [List.append_assoc, List.singleton_append]
  rw [lookup_optF_skip _ _ _ _ (by decide), lookup_optF_skip _ _ _ _ (by decide),
    lookup_optF_skip _ _ _ _ (by decide), lookup_optF_skip _ _ _ _ (by decide),
    lookup_optF_skip _ _ _ _ (by decide), lookup_optF_skip _ _ _ _ (by decide),
    lookup_optF_skip _ _ _ _ (by decide), lookup_optF_skip _ _ _ _ (by decide),
    lookup_optF_skip _ _ _ _ (by decide), lookup_optF_skip _ _ _ _ (by decide),
    lookup_optF_skip _ _ _ _ (by decide),
    lookup_cons_ne _ _ _ _ (by decide), lookup_optF_self]

/-- C9 (amended, for the `part_002` Blob Decoder): a player-type decode of a
non-empty buffer yields a `playerLevel` field equal to the sum of all
detected skill levels exactly when at least one skill level was detected,
and no such field otherwise. -/
theorem C9_player_level_aggregate_P2 (bytes : List Nat) (t : String)
    (ht : ¬ t = "vehicle") (hb : bytes ≠ []) :
    (decodePlayerSkills (bytes.map (fun x => x % 256)) ≠ [] →
      List.lookup "playerLevel" ((decodePzBufferP2 (some bytes) t).extracted) =
        some (FieldVal.vnum
          (sumLevels (decodePlayerSkills (bytes.map (fun x => x % 256)))))) ∧
    (decodePlayerSkills (bytes.map (fun x => x % 256)) = [] →
      List.lookup "playerLevel" ((decodePzBufferP2 (some bytes) t).extracted) =
        none) := by
  have hbl : ¬ (bytes.map (fun x => x % 256)).length = 0 := by
    simp only [List.length_map, List.length_eq_zero]
    exact hb
  have hx : (decodePzBufferP2 (some bytes) t).extracted =
      playerFieldsP2 (bytes.map (fun x => x % 256)) := by
    dsimp only [decodePzBufferP2]
    rw [if_neg hbl, if_neg ht]
  rw [hx, lookup_playerLevel_P2]
  constructor
  · intro hne
    rw [if_pos hne]
  · intro hnil
    rw [if_neg (by simp [hnil])]

/-- C9 witness: the Fitness buffer has one detected skill level, and its
decode carries the aggregate; the one-byte buffer has none and carries no
aggregate. -/
theorem C9_player_level_aggregate_P2_witness :
    List.lookup "playerLevel"
        ((decodePzBufferP2 (some fitBuf35) "player").extracted) =
      some (FieldVal.vnum
        (sumLevels (decodePlayerSkills (fitBuf35.map (fun x => x % 256))))) ∧
    List.lookup "playerLevel"
        ((decodePzBufferP2 (some [65]) "player").extracted) = none :=
  ⟨(C9_player_level_aggregate_P2 fitBuf35 "player" (by decide) (by decide)).1
      (by decide),
   (C9_player_level_aggregate_P2 [65] "player" (by decide) (by decide)).2
      (by decide)⟩

/-- C9 (counterexample): the `lib` Blob Decoder computes no aggregate player
level at all — decoding the Fitness buffer as a player detects a skill
level, yet the extracted mapping has no `playerLevel` key. -/
theorem C9_no_player_level_in_lib_counterexample :
    List.lookup "skillLevels"
        ((decodePzBuffer (some fitBuf35) "player").extracted) =
      some (FieldVal.vlevels [("Fitness", 3)]) ∧
    List.lookup "playerLevel"
        ((decodePzBuffer (some fitBuf35) "player").extracted) = none := by
  constructor
  · decide
  · decide

/-- C4 (counterexample): the claim says `"base:belt"` classifies as neither
a profession nor a trait.  The `lib` classifier accepts ANY
`/^base:[a-z]+$/i` string under 30 characters as a profession id, so
decoding a buffer holding the strings `"base:burglar"` and `"base:belt"`
puts `"base:belt"` into `professionIds`. -/
theorem C4_belt_is_profession_in_lib_counterexample :
    List.lookup "professionIds"
        ((decodePzBuffer (some beltBuf) "player").extracted) =
      some (FieldVal.vstrs ["base:burglar", "base:belt"]) := by
  decide

/-- C4 (amended): the claimed classification is implemented only by the
`part_002` copy: its profession filter accepts a string only when its
lowercase form is in the fixed closed `PZ_PROFESSION_IDS` set, so
`"base:burglar"` is a profession while `"base:belt"` is neither a
profession nor a trait (clothing/slot exclusion).  The `lib` copy instead
classifies every `base:`-word string under 30 characters as a profession,
so `"base:belt"` lands in its profession bucket. -/
theorem C4_profession_closed_set_P2 :
    (∀ s : String, professionFilterP2 s = true →
      strLower s ∈ PZ_PROFESSION_IDS) ∧
    List.lookup "professionIds"
        ((decodePzBufferP2 (some beltBuf) "player").extracted) =
      some (FieldVal.vstrs ["base:burglar"]) ∧
    List.lookup "traitOrSkillIds"
        ((decodePzBufferP2 (some beltBuf) "player").extracted) = none ∧
    List.lookup "professionIds"
        ((decodePzBuffer (some beltBuf) "player").extracted) =
      some (FieldVal.vstrs ["base:burglar", "base:belt"]) := by
  refine ⟨?_, by decide, by decide, by decide⟩
  intro s h
  unfold professionFilterP2 at h
  simp only [Bool.and_eq_true, decide_eq_true_eq] at h
  exact h.2

/-- C4 witness: `"base:burglar"` passes the `part_002` profession filter and
is indeed in the closed profession set. -/
theorem C4_profession_closed_set_P2_witness :
    strLower "base:burglar" ∈ PZ_PROFESSION_IDS :=
  C4_profession_closed_set_P2.1 "base:burglar" (by decide)

/-- Fuel adequacy for the extraction scan: any two fuels that cover the
remaining iterations (`buf.length - 1 - i` bounds them, since every
iteration advances the offset and the loop runs only while
`i < buf.length - 1`) compute the same string sequence. -/
theorem extractFromF_congr (buf : List Nat) :
    ∀ (f₁ : Nat), ∀ (f₂ i : Nat), buf.length - 1 - i ≤ f₁ →
      buf.length - 1 - i ≤ f₂ →
      extractFromF buf f₁ i = extractFromF buf f₂ i := by
  intro f₁
  induction f₁ with
  | zero =>
    intro f₂ i h1 h2
    rcases f₂ with _ | f₂
    · rfl
    · rw [extractFromF, extractFromF]
      rw [if_neg (by omega)]
  | succ f₁ ih =>
    intro f₂ i h1 h2
    rcases f₂ with _ | f₂
    · rw [extractFromF, extractFromF]
      rw [if_neg (by omega)]
    · rw [extractFromF, extractFromF]
      by_cases hi : i < buf.length - 1
      · rw [if_pos hi, if_pos hi]
        by_cases hlp : lpChk buf i
        · rw [if_pos hlp, if_pos hlp]
          have hlen : 0 < lpLen buf i := hlp.1
          rw [ih f₂ (i + 2 + lpLen buf i) (by omega) (by omega)]
        · rw [if_neg hlp, if_neg hlp]
          by_cases hrs : isRunByte (getB buf i 0) = true
          · rw [if_pos hrs, if_pos hrs]
            by_cases hrl : 2 ≤ runEnd buf i - i ∧ runEnd buf i - i ≤ 200
            · rw [if_pos hrl, if_pos hrl]
              have hsk := skip0_ge buf (runEnd buf i)
              have hre : i + 2 ≤ runEnd buf i := by omega
              rw [ih f₂ (skip0 buf (runEnd buf i)) (by omega) (by omega)]
            · rw [if_neg hrl, if_neg hrl, ih f₂ (i + 1) (by omega) (by omega)]
          · rw [if_neg hrs, if_neg hrs, ih f₂ (i + 1) (by omega) (by omega)]
      · rw [if_neg hi, if_neg hi]

/-- C5: at every scan position with a plausible declared length
(`0 < L ≤ 500`, region in bounds), the String Extraction Engine accepts the
length-prefixed interpretation exactly when the payload is printable UTF-8
and its decoded character count equals `L`; when the decoded character
count disagrees with `L`, the scan falls through to the printable-run
strategy at the same position instead. -/
theorem C5_length_prefix_requires_exact_count :
    (∀ (buf : List Nat) (i : Nat), i < buf.length - 1 → lpChk buf i →
      extractFrom buf i =
        (⟨utf8DecodeList (lpSlice buf i)⟩ : String) ::
          extractFrom buf (i + 2 + lpLen buf i)) ∧
    (∀ (buf : List Nat) (i : Nat), i < buf.length - 1 →
      0 < lpLen buf i → lpLen buf i ≤ 500 →
      i + 2 + lpLen buf i ≤ buf.length →
      (utf8DecodeList (lpSlice buf i)).length ≠ lpLen buf i →
      extractFrom buf i =
        (if isRunByte (getB buf i 0) = true then
          (if 2 ≤ runEnd buf i - i ∧ runEnd buf i - i ≤ 200 then
            (⟨utf8DecodeList (listExtract buf i (runEnd buf i))⟩ : String) ::
              extractFrom buf (skip0 buf (runEnd buf i))
          else extractFrom buf (i + 1))
        else extractFrom buf (i + 1))) := by
  constructor
  · intro buf i hw hlp
    have hlen : 0 < lpLen buf i := hlp.1
    unfold extractFrom
    rw [extractFromF_congr buf (buf.length - i) (buf.length - 1 - i + 1) i
      (by omega) (by omega)]
    rw [extractFromF, if_pos hw, if_pos hlp]
    rw [extractFromF_congr buf (buf.length - 1 - i) (buf.length - (i + 2 + lpLen buf i))
      (i + 2 + lpLen buf i) (by omega) (by omega)]
  · intro buf i hw h0 h500 hbound hne
    have hnot : ¬ lpChk buf i := fun hc => hne hc.2.2.2.2
    unfold extractFrom
    rw [extractFromF_congr buf (buf.length - i) (buf.length - 1 - i + 1) i
      (by omega) (by omega)]
    rw [extractFromF, if_pos hw, if_neg hnot]
    by_cases hrs : isRunByte (getB buf i 0) = true
    · rw [if_pos hrs, if_pos hrs]
      by_cases hrl : 2 ≤ runEnd buf i - i ∧ runEnd buf i - i ≤ 200
      · rw [if_pos hrl, if_pos hrl]
        have hsk := skip0_ge buf (runEnd buf i)
        have hre : i + 2 ≤ runEnd buf i := by omega
        rw [extractFromF_congr buf (buf.length - 1 - i)
          (buf.length - skip0 buf (runEnd buf i)) (skip0 buf (runEnd buf i))
          (by omega) (by omega)]
      · rw [if_neg hrl, if_neg hrl]
        rw [extractFromF_congr buf (buf.length - 1 - i) (buf.length - (i + 1))
          (i + 1) (by omega) (by omega)]
    · rw [if_neg hrs, if_neg hrs]
      rw [extractFromF_congr buf (buf.length - 1 - i) (buf.length - (i + 1))
        (i + 1) (by omega) (by omega)]

/-- C5 witness: the buffer `[0, 2, 0x48, 0x69]` declares length 2 over the
printable payload `"Hi"` (decoded count 2) and is accepted; the buffer
`[0, 2, 0xC3, 0xA9]` declares length 2 over the two UTF-8 bytes of `é`
(decoded count 1), so it falls through to the printable-run strategy. -/
theorem C5_length_prefix_requires_exact_count_witness :
    extractFrom lpGoodBuf 0 =
      (⟨utf8DecodeList (lpSlice lpGoodBuf 0)⟩ : String) ::
        extractFrom lpGoodBuf (0 + 2 + lpLen lpGoodBuf 0) ∧
    extractFrom lpBadBuf 0 =
      (if isRunByte (getB lpBadBuf 0 0) = true then
        (if 2 ≤ runEnd lpBadBuf 0 - 0 ∧ runEnd lpBadBuf 0 - 0 ≤ 200 then
          (⟨utf8DecodeList (listExtract lpBadBuf 0 (runEnd lpBadBuf 0))⟩ : String) ::
            extractFrom lpBadBuf (skip0 lpBadBuf (runEnd lpBadBuf 0))
        else extractFrom lpBadBuf (0 + 1))
      else extractFrom lpBadBuf (0 + 1)) :=
  ⟨C5_length_prefix_requires_exact_count.1 lpGoodBuf 0 (by decide) (by decide),
   C5_length_prefix_requires_exact_count.2 lpBadBuf 0 (by decide) (by decide)
     (by decide) (by decide) (by decide)⟩

/-- C7 (counterexample): the claim says that on EVERY exit path — including
a failure while copying the source files into the snapshot directory — both
snapshot copies are deleted before the outcome is reported.  When the
vehicles copy succeeds and the players copy fails, the `catch` block around
the copies reports the error immediately: the vehicles snapshot file is
left behind and no unlink happens before (or after) the report. -/
theorem C7_copy_failure_counterexample :
    (syncFromSnapshotsRun envCopyPlayersFails st0).2.vehSnapExists = true ∧
    SyncEv.report true ∈ (syncFromSnapshotsRun envCopyPlayersFails st0).1 ∧
    ¬ SyncEv.unlinkVeh ∈ (syncFromSnapshotsRun envCopyPlayersFails st0).1 := by
  refine ⟨rfl, by decide, by decide⟩

/-- C7 (amended): once both snapshot copies and both opens have succeeded,
cleanup is unconditional: on every remaining exit path (schema-discovery
failure, vehicles-sync failure, players-sync failure, success), both
snapshot copies are deleted and both snapshot handles closed before the
single `callback` reports the outcome.  (On a copy failure the partially
created snapshot copies are NOT removed, and when exactly the vehicles open
fails the successfully opened players handle is not closed — so the claim's
"every exit path" does not hold, only this narrowed form.) -/
theorem C7_cleanup_after_successful_opens (env : SyncEnv) (s : SyncSt)
    (h1 : env.configPresent = true) (h2 : env.vehiclesSrcExists = true)
    (h3 : env.playersSrcExists = true) (h4 : env.copyVehiclesOk = true)
    (h5 : env.copyPlayersOk = true) (h6 : env.openVehiclesOk = true)
    (h7 : env.openPlayersOk = true) :
    ((syncFromSnapshotsRun env s).2.vehSnapExists = false ∧
     (syncFromSnapshotsRun env s).2.playSnapExists = false ∧
     (syncFromSnapshotsRun env s).2.vehDbOpen = false ∧
     (syncFromSnapshotsRun env s).2.playDbOpen = false) ∧
    ((syncFromSnapshotsRun env s).1.filter isReport).length = 1 ∧
    (SyncEv.closeVeh ∈
      ((syncFromSnapshotsRun env s).1.takeWhile (fun e => !(isReport e))) ∧
     SyncEv.closePlay ∈
      ((syncFromSnapshotsRun env s).1.takeWhile (fun e => !(isReport e))) ∧
     SyncEv.unlinkVeh ∈
      ((syncFromSnapshotsRun env s).1.takeWhile (fun e => !(isReport e))) ∧
     SyncEv.unlinkPlay ∈
      ((syncFromSnapshotsRun env s).1.takeWhile (fun e => !(isReport e)))) := by
  rcases env with ⟨c, ve, pe, cv, cp, ov, op, d, sv, sp⟩
  simp only at h1 h2 h3 h4 h5 h6 h7
  subst h1; subst h2; subst h3; subst h4; subst h5; subst h6; subst h7
  cases d <;> cases sv <;> cases sp <;>
    exact ⟨⟨rfl, rfl, rfl, rfl⟩, rfl, of_decide_eq_true rfl,
      of_decide_eq_true rfl, of_decide_eq_true rfl, of_decide_eq_true rfl⟩

/-- C7 witness: the all-success run performs full cleanup before reporting. -/
theorem C7_cleanup_after_successful_opens_witness :
    ((syncFromSnapshotsRun envAllOk st0).2.vehSnapExists = false ∧
     (syncFromSnapshotsRun envAllOk st0).2.playSnapExists = false ∧
     (syncFromSnapshotsRun envAllOk st0).2.vehDbOpen = false ∧
     (syncFromSnapshotsRun envAllOk st0).2.playDbOpen = false) ∧
    ((syncFromSnapshotsRun envAllOk st0).1.filter isReport).length = 1 ∧
    (SyncEv.closeVeh ∈
      ((syncFromSnapshotsRun envAllOk st0).1.takeWhile (fun e => !(isReport e))) ∧
     SyncEv.closePlay ∈
      ((syncFromSnapshotsRun envAllOk st0).1.takeWhile (fun e => !(isReport e))) ∧
     SyncEv.unlinkVeh ∈
      ((syncFromSnapshotsRun envAllOk st0).1.takeWhile (fun e => !(isReport e))) ∧
     SyncEv.unlinkPlay ∈
      ((syncFromSnapshotsRun envAllOk st0).1.takeWhile (fun e => !(isReport e)))) :=
  C7_cleanup_after_successful_opens envAllOk st0 rfl rfl rfl rfl rfl rfl rfl

/-- C8: when a configured source database path does not exist at sync start
(the existence checks precede the copies), the run reports exactly one
error to the caller, performs no copy (the trace is the single report), and
leaves the entire state — both snapshot-file flags and both cache-table
generations — exactly as it was before the call. -/
theorem C8_source_missing_no_mutation (env : SyncEnv) (s : SyncSt)
    (h1 : env.configPresent = true)
    (h2 : env.vehiclesSrcExists = false ∨ env.playersSrcExists = false) :
    (syncFromSnapshotsRun env s).1 = [SyncEv.report true] ∧
    (syncFromSnapshotsRun env s).2 = s := by
  rcases env with ⟨c, ve, pe, cv, cp, ov, op, d, sv, sp⟩
  simp only at h1 h2
  subst h1
  rcases h2 with h | h
  · subst h
    exact ⟨rfl, rfl⟩
  · subst h
    cases ve
    · exact ⟨rfl, rfl⟩
    · exact ⟨rfl, rfl⟩

/-- C8 witness: a concrete missing-vehicles-path run reports the error and
leaves the state untouched. -/
theorem C8_source_missing_no_mutation_witness :
    (syncFromSnapshotsRun envVehiclesMissing st0).1 = [SyncEv.report true] ∧
    (syncFromSnapshotsRun envVehiclesMissing st0).2 = st0 :=
  C8_source_missing_no_mutation envVehiclesMissing st0 rfl (Or.inl rfl)
